import Mathlib

/-!
Verification development for the regex-pattern-app plan execution engine.

The definitions below are a shallow embedding of the Python sources
`backend/api/utils/regex_executor.py`, `backend/api/utils/date_normalizer.py`
and `backend/api/utils/plan_v2.py`.  Conventions used throughout:

* A dataset (`pandas.DataFrame`) is modelled as a header list plus rows of
  cells, where a cell is `Option String` (`none` models a missing value /
  `pd.NA`).  The embedding covers datasets whose columns are all
  string-dtyped with the default integer range index, which is the shape
  every claim below exercises; consequently `text_columns` selects every
  column.
* Machine integers do not occur; Python ints are `Nat`/`Int`, Python float
  literals in filters are exact rationals.
* Calls into external libraries are parameters of the embedding:
  `QueryEngine` stands for `pandas.DataFrame.query` (with a concrete
  instance `pandas_query_fragment` modelling its documented behaviour on
  the filter fragment exercised here), `RegexEngine` stands for compiled
  `re` patterns (with a concrete instance modelling `re` for the match-all
  pattern `^.*$`), and the third-party date parsers behind `_parse_one`
  are a function parameter.
* Python regular-expression scans that the source performs with `re`
  (e.g. `re.findall`, `re.sub`) are implemented as explicit left-to-right
  scanners over `List Char`, reproducing the source pattern's semantics,
  including its quirks (greedy/lazy groups, the vacuous leading `\b` of
  the OR-splitter, and the misplaced backreference in the display-regex
  scanner).  Scanners take a fuel argument; every step consumes at least
  one character, so fuel `length + 1` (what all wrappers pass) is always
  sufficient.
-/

namespace RegexApp

/-! ## Basic character and string helpers (Python semantics) -/

/-- Python's `\w` character class restricted to ASCII data: letters, digits and
underscore.  All strings the claims exercise are ASCII. -/
def isWordChar (c : Char) : Bool := c.isAlpha || c.isDigit || c = '_'

/-- Python's `\s` class on ASCII data: space, tab, newline, carriage return,
vertical tab and form feed. -/
def isPySpace (c : Char) : Bool :=
  c = ' ' || c = '\t' || c = '\n' || c = '\r' || c = '\x0b' || c = '\x0c'

/-- Python `str.strip()` (ASCII whitespace). -/
def pyStripChars (cs : List Char) : List Char :=
  ((cs.dropWhile isPySpace).reverse.dropWhile isPySpace).reverse

/-- Python `str.strip()` on `String`. -/
def pyStrip (s : String) : String := String.mk (pyStripChars s.data)

/-- ASCII lower-casing, the model of Python `str.lower()` / `str.casefold()`
on the ASCII data of this development. -/
def pyLowerChar (c : Char) : Char := c.toLower

/-- Python `str.lower()` on `String` (ASCII). -/
def pyLower (s : String) : String := String.mk (s.data.map pyLowerChar)

/-- Case-insensitive character comparison. -/
def ciEq (a b : Char) : Bool := a.toLower = b.toLower

/-- Drop a literal pattern from the head of the input, case-sensitively,
returning the rest on success. -/
def dropLit : List Char → List Char → Option (List Char)
  | [], cs => some cs
  | _ :: _, [] => none
  | p :: ps, c :: cs => if p = c then dropLit ps cs else none

/-- Drop a literal pattern from the head of the input, case-insensitively
(for `(?i)` scans), returning the rest on success. -/
def dropLitCI : List Char → List Char → Option (List Char)
  | [], cs => some cs
  | _ :: _, [] => none
  | p :: ps, c :: cs => if ciEq p c then dropLitCI ps cs else none

/-- Consume `\s*`. -/
def dropSpaces (cs : List Char) : List Char := cs.dropWhile isPySpace

/-- Take a maximal run of decimal digits together with the rest. -/
def takeDigits (cs : List Char) : List Char × List Char :=
  (cs.takeWhile Char.isDigit, cs.dropWhile Char.isDigit)

/-- Numeric value of a digit run. -/
def digitsToNat (ds : List Char) : Nat :=
  ds.foldl (fun acc c => acc * 10 + (c.toNat - '0'.toNat)) 0

/-- Python `str.replace(old, new)`: replace every non-overlapping occurrence,
left to right.  Fuel-driven scanner; each step consumes one character or a
whole occurrence. -/
def strReplaceAux (pat tgt : List Char) : Nat → List Char → List Char
  | 0, rest => rest
  | _ + 1, [] => []
  | fuel + 1, c :: rest =>
    match dropLit pat (c :: rest) with
    | some r => tgt ++ strReplaceAux pat tgt fuel r
    | none => c :: strReplaceAux pat tgt fuel rest

/-- Python `str.replace` on `String` (for a non-empty pattern). -/
def strReplace (s pat tgt : String) : String :=
  String.mk (strReplaceAux pat.data tgt.data (s.data.length + 1) s.data)

/-! ## `_compile_flags` (regex_executor.py lines 29-46) -/

/-- Python `re.IGNORECASE`. -/
def reIGNORECASE : Nat := 2

/-- Python `re.MULTILINE`. -/
def reMULTILINE : Nat := 8

/-- Python `re.DOTALL`. -/
def reDOTALL : Nat := 16

/-- Python `re.VERBOSE`. -/
def reVERBOSE : Nat := 64

/-- One step of `_compile_flags`' accumulation loop. -/
def flagStep (f : Nat) (ch : Char) : Nat :=
  if ch = 'i' then f ||| reIGNORECASE
  else if ch = 'm' then f ||| reMULTILINE
  else if ch = 's' then f ||| reDOTALL
  else if ch = 'x' then f ||| reVERBOSE
  else f

/-- Model of `_compile_flags`: translate the plan's flag string into a Python
`re` flag bitmask.  Characters other than `i`, `m`, `s`, `x` contribute
nothing (the source's `u` branch is a no-op), and a zero result falls back to
`re.IGNORECASE` through Python's `f or re.IGNORECASE`. -/
def compile_flags (flags : String) : Nat :=
  if flags = "" then reIGNORECASE
  else
    let f := flags.data.foldl flagStep 0
    if f = 0 then reIGNORECASE else f

/-! ## Date normalizer (date_normalizer.py)

Calendar arithmetic: day counts are measured from 1970-01-01 (negative before
it); the conversions are the standard civil-calendar algorithms, stated over
`Nat` after shifting by the era offset so that kernel evaluation is cheap. -/

/-- Convert a day count relative to 1970-01-01 into a proleptic Gregorian
`(year, month, day)` triple (valid for dates from year 0 on, which covers
every value this development evaluates). -/
def civilFromDays (z : Int) : Nat × Nat × Nat :=
  let za := (z + 719468).toNat
  let era := za / 146097
  let doe := za % 146097
  let yoe := (doe - doe / 1460 + doe / 36524 - doe / 146096) / 365
  let y0 := yoe + era * 400
  let doy := doe - (365 * yoe + yoe / 4 - yoe / 100)
  let mp := (5 * doy + 2) / 153
  let d := doy - (153 * mp + 2) / 5 + 1
  let m := if mp < 10 then mp + 3 else mp - 9
  if m ≤ 2 then (y0 + 1, m, d) else (y0, m, d)

/-- Convert a proleptic Gregorian date (year ≥ 1) to its day count relative to
1970-01-01. -/
def daysFromCivil (y m d : Nat) : Int :=
  let y0 := if m ≤ 2 then y - 1 else y
  let era := y0 / 400
  let yoe := y0 % 400
  let mAdj := if m > 2 then m - 3 else m + 9
  let doy := (153 * mAdj + 2) / 5 + d - 1
  let doe := yoe * 365 + yoe / 4 - yoe / 100 + doy
  ((era * 146097 + doe : Nat) : Int) - 719468

/-- Zero-padded two-digit decimal rendering. -/
def pad2 (n : Nat) : String := if n < 10 then "0" ++ toString n else toString n

/-- Zero-padded four-digit decimal rendering. -/
def pad4 (n : Nat) : String :=
  if n < 10 then "000" ++ toString n
  else if n < 100 then "00" ++ toString n
  else if n < 1000 then "0" ++ toString n
  else toString n

/-- Model of `_to_strftime`: rewrite a human format (`YYYY-MM-DD HH:mm:ss`)
into a strftime pattern by sequential `str.replace` in the source's mapping
order. -/
def to_strftime (fmt : String) : String :=
  let out := strReplace fmt "YYYY" "%Y"
  let out := strReplace out "YY" "%y"
  let out := strReplace out "MM" "%m"
  let out := strReplace out "DD" "%d"
  let out := strReplace out "HH" "%H"
  let out := strReplace out "mm" "%M"
  let out := strReplace out "ss" "%S"
  out

/-- Model of `datetime.strftime` for a midnight datetime, restricted to the
directives `_to_strftime` can emit (`%Y %y %m %d %H %M %S`). -/
def strftimeYmdAux (y m d : Nat) : Nat → List Char → List Char
  | 0, rest => rest
  | _ + 1, [] => []
  | fuel + 1, c :: rest =>
    if c = '%' then
      match rest with
      | 'Y' :: r => (pad4 y).data ++ strftimeYmdAux y m d fuel r
      | 'y' :: r => (pad2 (y % 100)).data ++ strftimeYmdAux y m d fuel r
      | 'm' :: r => (pad2 m).data ++ strftimeYmdAux y m d fuel r
      | 'd' :: r => (pad2 d).data ++ strftimeYmdAux y m d fuel r
      | 'H' :: r => ['0', '0'] ++ strftimeYmdAux y m d fuel r
      | 'M' :: r => ['0', '0'] ++ strftimeYmdAux y m d fuel r
      | 'S' :: r => ['0', '0'] ++ strftimeYmdAux y m d fuel r
      | r => c :: strftimeYmdAux y m d fuel r
    else c :: strftimeYmdAux y m d fuel rest

/-- Format a `(year, month, day)` triple with a strftime pattern. -/
def strftimeYmd (fmt : String) (ymd : Nat × Nat × Nat) : String :=
  String.mk (strftimeYmdAux ymd.1 ymd.2.1 ymd.2.2 (fmt.data.length + 1) fmt.data)

/-! ### `guess_dayfirst` (date_normalizer.py lines 111-132) -/

/-- Take exactly `k` digits from the head, returning their value and the
rest. -/
def takeDigitsExact (k : Nat) (cs : List Char) : Option (Nat × List Char) :=
  let run := cs.takeWhile Char.isDigit
  if k ≤ run.length then some (digitsToNat (run.take k), cs.drop k) else none

/-- Word-boundary test for the position starting at `rest` whose preceding
character is `prev` (`none` at the start of the string). -/
def boundaryBefore (prev : Option Char) : Bool :=
  match prev with
  | none => true
  | some c => !isWordChar c

/-- Word-boundary test after a match: the next character (if any) is not a
word character. -/
def boundaryAfter (rest : List Char) : Bool :=
  match rest with
  | [] => true
  | c :: _ => !isWordChar c

/-- One attempt of the source's ambiguous-date regex (digits 1-2, a slash or
dash, digits 1-2, a slash or dash, digits 2-4, with word boundaries on both
sides) at a fixed position: the leading boundary had to be checked by the
caller.
Backtracking mirrors the greedy quantifiers (2-then-1 digits, 4-then-3-then-2
year digits). -/
def ambShapeAt (cs : List Char) : Option (Nat × Nat) :=
  let sep := fun c => c = '/' || c = '-'
  let third := fun (rest : List Char) =>
    (takeDigitsExact 4 rest >>= fun (_, r) => if boundaryAfter r then some () else none)
    <|> (takeDigitsExact 3 rest >>= fun (_, r) => if boundaryAfter r then some () else none)
    <|> (takeDigitsExact 2 rest >>= fun (_, r) => if boundaryAfter r then some () else none)
  let second := fun (a : Nat) (rest : List Char) =>
    let go := fun (k : Nat) =>
      takeDigitsExact k rest >>= fun (b, r) =>
        match r with
        | c :: r2 => if sep c then (third r2).map (fun _ => (a, b)) else none
        | [] => none
    go 2 <|> go 1
  let first := fun (k : Nat) =>
    takeDigitsExact k cs >>= fun (a, r) =>
      match r with
      | c :: r2 => if sep c then second a r2 else none
      | [] => none
  first 2 <|> first 1

/-- The first match of the ambiguous-date regex in a string: scan left to
right, tracking the previous character for the leading `\b`. -/
def findAmbShapeAux : Nat → Option Char → List Char → Option (Nat × Nat)
  | 0, _, _ => none
  | _ + 1, _, [] => none
  | fuel + 1, prev, c :: rest =>
    match (if boundaryBefore prev then ambShapeAt (c :: rest) else none) with
    | some ab => some ab
    | none => findAmbShapeAux fuel (some c) rest

/-- First `(A, B)` of an `A/B/C`-shaped numeric date in the string, if any. -/
def findAmbShape (s : String) : Option (Nat × Nat) :=
  findAmbShapeAux (s.data.length + 1) none s.data

/-- One attempt of `re.search(r"\b(13|14|15|1[6-9]|2[0-9]|3[01])\b", s)` at a
fixed position (two-digit value 13-31 with boundaries on both sides). -/
def dayHintAt (cs : List Char) : Bool :=
  match cs with
  | a :: b :: rest =>
    a.isDigit && b.isDigit
      && (let v := digitsToNat [a, b]; 13 ≤ v && v ≤ 31)
      && boundaryAfter rest
  | _ => false

/-- Does the string contain a standalone two-digit number 13-31 (a value that
could only be a day-of-month)? -/
def hasDayHintAux : Nat → Option Char → List Char → Bool
  | 0, _, _ => false
  | _ + 1, _, [] => false
  | fuel + 1, prev, c :: rest =>
    (boundaryBefore prev && dayHintAt (c :: rest)) || hasDayHintAux fuel (some c) rest

/-- Search for the day-hint shape anywhere in the string. -/
def hasDayHint (s : String) : Bool := hasDayHintAux (s.data.length + 1) none s.data

/-- Model of `guess_dayfirst`: scan up to 200 samples; a sample is an
ambiguous hit when its first `A/B/C` numeric shape has both `A ≤ 12` and
`B ≤ 12`, and such a hit votes for day-first when the same string contains a
standalone 13-31 number.  Returns `some true` when the votes reach
`max 1 (hits / 3)`, otherwise `none` (the source never returns `False`). -/
def guess_dayfirst (samples : List String) : Option Bool :=
  let counts := (samples.take 200).foldl
    (fun (acc : Nat × Nat) s =>
      match findAmbShape s with
      | none => acc
      | some (a, b) =>
        if a ≤ 12 && b ≤ 12 then
          (acc.1 + 1, acc.2 + (if hasDayHint s then 1 else 0))
        else acc) (0, 0)
  if counts.1 = 0 then none
  else if max 1 (counts.1 / 3) ≤ counts.2 then some true else none

/-! ### `normalize_cell_as_whole` (date_normalizer.py lines 162-194) -/

/-- A Python value reaching `normalize_cell_as_whole`: an int, a string or
`None` (floats and bools are not exercised by the claims). -/
inductive PyValue
  | pint (n : Int)
  | pstr (s : String)
  | pnone
deriving DecidableEq

/-- Model of `normalize_cell_as_whole`.  The external parsing stack behind
`_parse_one` (dateparser / dateutil / the strptime list) is the parameter
`parse_one`, returning a calendar date or `none`.

The source's Excel-serial branch (`base + timedelta(days=n)`) references the
name `timedelta`, which `date_normalizer.py` never imports; at run time that
branch always raises `NameError`, the surrounding `except Exception: pass`
swallows it, and control falls through to the stringify-and-parse path below.
The embedding therefore has no reachable serial branch. -/
def normalize_cell_as_whole (parse_one : String → Option (Nat × Nat × Nat))
    (value : PyValue) (out_fmt : String) : String × Nat :=
  let fmt := to_strftime out_fmt
  let s := match value with
    | .pint n => toString n
    | .pstr t => t
    | .pnone => ""
  match parse_one s with
  | some ymd => (strftimeYmd fmt ymd, 1)
  | none => (s, 0)

/-- Modelled from the spec: the intended behaviour of
`normalize_cell_as_whole` on numeric values, whose implementation in the
source is unreachable (the `timedelta` name it uses is never imported).  A
numeric value in `10000..80000` is read as a day count since the 1899-12-30
spreadsheet epoch and formatted directly; other values take the
stringify-and-parse path of the source. -/
def normalize_cell_as_whole_spec (parse_one : String → Option (Nat × Nat × Nat))
    (value : PyValue) (out_fmt : String) : String × Nat :=
  let fmt := to_strftime out_fmt
  match value with
  | .pint n =>
    if 10000 ≤ n ∧ n ≤ 80000 then
      (strftimeYmd fmt (civilFromDays (daysFromCivil 1899 12 30 + n)), 1)
    else
      match parse_one (toString n) with
      | some ymd => (strftimeYmd fmt ymd, 1)
      | none => (toString n, 0)
  | _ => normalize_cell_as_whole parse_one value out_fmt

/-! ## Dataset and mask model -/

/-- A dataset cell: a string value or a missing value (`pd.NA` / `None`). -/
abbrev Cell := Option String

/-- A `pandas.DataFrame` with all-string columns and the default integer
range index (row label = row position). -/
structure DataFrame where
  headers : List String
  rows : List (List Cell)
deriving DecidableEq

/-- Number of rows. -/
def DataFrame.nrows (df : DataFrame) : Nat := df.rows.length

/-- A boolean selection mask aligned with the dataset's rows. -/
abbrev Mask := List Bool

/-- Mask lookup (out-of-range positions read as `false`). -/
def maskGet (m : Mask) (i : Nat) : Bool := m.getD i false

/-- Number of selected rows (`mask.sum()`). -/
def maskSum (m : Mask) : Nat := m.count true

/-- Pointwise conjunction of masks. -/
def maskAnd (a b : Mask) : Mask := a.zipWith (fun x y => x && y) b

/-- Pointwise disjunction of masks. -/
def maskOr (a b : Mask) : Mask := a.zipWith (fun x y => x || y) b

/-- The all-true mask over a dataset (`pd.Series(True, index=df.index)`). -/
def allTrueMask (df : DataFrame) : Mask := List.replicate df.nrows true

/-- The all-false mask over a dataset. -/
def allFalseMask (df : DataFrame) : Mask := List.replicate df.nrows false

/-- The selected row labels, in order (`df.index[mask]`; labels are
positions under the default range index). -/
def maskPositions (m : Mask) : List Nat :=
  (List.range m.length).filter (fun i => maskGet m i)

/-- Position of a column name among the headers. -/
def colIndex (df : DataFrame) (c : String) : Option Nat := df.headers.indexOf? c

/-- The cells of a named column (`df[c]`; empty when the column does not
exist).  `astype("string")` is the identity on this all-string model, so
`_to_string` needs no separate definition. -/
def getCol (df : DataFrame) (c : String) : List Cell :=
  match colIndex df c with
  | some j => df.rows.map (fun r => r.getD j none)
  | none => []

/-- Overwrite a named column with new cells (`df[c] = col`). -/
def setCol (df : DataFrame) (c : String) (vals : List Cell) : DataFrame :=
  match colIndex df c with
  | some j => { df with rows := df.rows.zipWith (fun r v => r.set j v) vals }
  | none => df

/-- Cell lookup by row position and column name. -/
def getCell (df : DataFrame) (i : Nat) (c : String) : Cell :=
  match colIndex df c with
  | some j => (df.rows.getD i []).getD j none
  | none => none

/-- Model of `text_columns`: the columns with a textual dtype.  Every column
of this embedding's datasets is string-dtyped (see the module comment), so
all headers qualify. -/
def text_columns (df : DataFrame) : List String := df.headers

/-- Model of `_auto_columns` (regex_executor.py lines 16-26): explicit
non-empty lists win; otherwise REPLACE with the match-all pattern selects all
columns and anything else selects the textual columns. -/
def auto_columns (df : DataFrame) (intent pattern : String)
    (columns : Option (List String)) : List String :=
  match columns with
  | some cs =>
    if cs ≠ [] then cs
    else if pyLower intent = "replace" ∧ pattern = "^.*$" then df.headers
    else text_columns df
  | none =>
    if pyLower intent = "replace" ∧ pattern = "^.*$" then df.headers
    else text_columns df

/-! ## External engines

`pandas.DataFrame.query` and compiled `re` patterns are external libraries;
the pipeline is parameterised over them, with concrete instances below
covering exactly the behaviour the witnesses exercise. -/

/-- The strict expression engine (`df.query(q, engine="python")`): `none`
models the call raising, `some mask` a successful evaluation.  A successful
evaluation always yields a row-aligned mask. -/
structure QueryEngine where
  run : DataFrame → String → Option Mask
  len_ok : ∀ df q m, run df q = some m → m.length = df.nrows

/-- A compiled-regex oracle, modelling the `re` operations the executor and
the clause matcher perform with a pattern and a flag bitmask. -/
structure RegexEngine where
  countMatches : String → Nat → String → Nat
  subAll : String → Nat → String → String → String
  searchB : String → Nat → String → Bool
  matchB : String → Nat → String → Bool
  fullmatchB : String → Nat → String → Bool

/-- Match count of `re` pattern `^.*$` (no MULTILINE, no DOTALL) in a string:
one match when the string has no newline, or when its only newline is a
single trailing one; otherwise no match. -/
def matchAllCount (s : String) : Nat :=
  if s.data.all (fun c => c != '\n') then 1
  else if s.data.getLast? == some '\n' && (s.data.dropLast).all (fun c => c != '\n') then 1
  else 0

/-- `re.sub(r'^.*$', rep, s)` (no MULTILINE/DOTALL, `rep` free of template
escapes): a newline-free string becomes `rep`, a string whose only newline is
a single trailing one becomes `rep` + newline, anything else is unchanged. -/
def matchAllSubOne (rep : String) (s : String) : String :=
  if s.data.all (fun c => c != '\n') then rep
  else if s.data.getLast? == some '\n' && (s.data.dropLast).all (fun c => c != '\n') then rep ++ "\n"
  else s

/-- Regex engine modelling Python `re` for the match-all pattern `^.*$`
without the MULTILINE/DOTALL flags — the only compiled pattern the theorems
below evaluate.  Patterns outside that fragment report no matches and
substitute nothing. -/
def matchAllEngine : RegexEngine where
  countMatches := fun pat fl s =>
    if pat == "^.*$" && (fl &&& (reMULTILINE ||| reDOTALL)) == 0 then matchAllCount s else 0
  subAll := fun pat fl rep s =>
    if pat == "^.*$" && (fl &&& (reMULTILINE ||| reDOTALL)) == 0 then matchAllSubOne rep s else s
  searchB := fun _ _ _ => false
  matchB := fun _ _ _ => false
  fullmatchB := fun _ _ _ => false

/-! ### A concrete `df.query` instance

`pandas.DataFrame.query(q, engine="python")` restricted to the fragment the
witnesses exercise: conjunctions (with the keyword `and`) of the literal
`True` and of case-sensitive equality comparisons between a backtick-quoted
column and a quoted string literal.  Any other expression — ill-formed text,
unknown columns, unsupported operators — is treated as the call raising
(`none`), exactly as pandas raises on them or as the tiered fallback treats
an engine it cannot use. -/

/-- An atom of the supported query fragment. -/
inductive QAtom
  | qtrue
  | qeq (col lit : String)
deriving DecidableEq

/-- Parse one atom of the fragment, returning the unconsumed rest. -/
def parseQAtom (cs : List Char) : Option (QAtom × List Char) :=
  match dropLit "True".data cs with
  | some r => some (.qtrue, r)
  | none =>
    match cs with
    | '`' :: rest =>
      let colCs := rest.takeWhile (fun c => c != '`')
      if colCs.isEmpty then none
      else
        match rest.drop colCs.length with
        | '`' :: r2 =>
          match dropLit "==".data (dropSpaces r2) with
          | some r4 =>
            match dropSpaces r4 with
            | q :: r6 =>
              if q = '\'' ∨ q = '"' then
                let litCs := r6.takeWhile (fun c => c != q)
                match r6.drop litCs.length with
                | q2 :: r7 =>
                  if q2 = q then some (.qeq (String.mk colCs) (String.mk litCs), r7)
                  else none
                | [] => none
              else none
            | [] => none
          | none => none
        | _ => none
    | _ => none

/-- Parse a conjunction `atom (and atom)*`, requiring whitespace around each
`and` and full consumption of the input. -/
def parseQConjAux : Nat → List Char → Option (List QAtom)
  | 0, _ => none
  | fuel + 1, cs =>
    parseQAtom (dropSpaces cs) >>= fun (a, rest) =>
      let rest2 := dropSpaces rest
      if rest2.isEmpty then some [a]
      else if rest.length = rest2.length then none
      else
        match dropLit "and".data rest2 with
        | some r3 =>
          match r3 with
          | c :: _ =>
            if isPySpace c then (parseQConjAux fuel r3).map (fun as => a :: as)
            else none
          | [] => none
        | none => none

/-- Evaluate one atom to a mask; an unknown column models a `NameError`. -/
def qatomMask (df : DataFrame) : QAtom → Option Mask
  | .qtrue => some (allTrueMask df)
  | .qeq col lit =>
    if (colIndex df col).isSome then
      some ((getCol df col).map (fun cell => cell == some lit))
    else none

/-- Run the fragment engine: parse, then AND the atom masks together. -/
def pandasFragmentRun (df : DataFrame) (q : String) : Option Mask :=
  parseQConjAux (q.data.length + 1) q.data >>= fun atoms =>
    atoms.foldlM (fun acc a => (qatomMask df a).map (maskAnd acc)) (allTrueMask df)

theorem qatomMask_length (df : DataFrame) (a : QAtom) (m : Mask)
    (h : qatomMask df a = some m) : m.length = df.nrows := by
  cases a with
  | qtrue =>
    simp only [qatomMask, Option.some.injEq] at h
    simp [← h, allTrueMask]
  | qeq col lit =>
    simp only [qatomMask] at h
    split at h
    · cases h' : colIndex df col with
      | none => simp [colIndex] at *; simp_all
      | some j =>
        simp only [Option.some.injEq] at h
        simp [← h, getCol, h', DataFrame.nrows]
    · exact absurd h (by simp)

theorem maskAnd_length (a b : Mask) (ha : a.length = n) (hb : b.length = n) :
    (maskAnd a b).length = n := by
  simp [maskAnd, ha, hb]

theorem foldlM_maskAnd_length (df : DataFrame) (atoms : List QAtom) :
    ∀ (acc m : Mask), acc.length = df.nrows →
      atoms.foldlM (fun acc a => (qatomMask df a).map (maskAnd acc)) acc = some m →
      m.length = df.nrows := by
  induction atoms with
  | nil => intro acc m hacc h; simp only [List.foldlM] at h; cases h; exact hacc
  | cons a as ih =>
    intro acc m hacc h
    simp only [List.foldlM, Option.bind_eq_bind] at h
    cases hq : qatomMask df a with
    | none => rw [hq] at h; simp at h
    | some ma =>
      rw [hq] at h
      simp at h
      exact ih (maskAnd acc ma) m
        (maskAnd_length acc ma hacc (qatomMask_length df a ma hq)) h

/-- The fragment engine as a `QueryEngine`. -/
def pandasQueryFragment : QueryEngine where
  run := pandasFragmentRun
  len_ok := by
    intro df q m h
    simp only [pandasFragmentRun, Option.bind_eq_bind] at h
    cases hp : parseQConjAux (q.data.length + 1) q.data with
    | none => rw [hp] at h; simp at h
    | some atoms =>
      rw [hp] at h
      simp only [Option.some_bind] at h
      exact foldlM_maskAnd_length df atoms (allTrueMask df) m (by simp [allTrueMask]) h

/-! ## Clause scanners (`_mask_from_clauses`, regex_executor.py lines 105-194)

Each scanner reproduces one `re.findall` of the source as a left-to-right
scan: an attempt is made at every position, a successful attempt consumes the
whole match, a failed one advances one character. -/

/-- One attempt of the equality-clause pattern (backtick-quoted column,
optional whitespace, `==`, optional whitespace, a quoted literal captured
lazily up to the same quote character with no newline). -/
def eqAttempt (cs : List Char) : Option ((String × String) × List Char) :=
  match cs with
  | '`' :: rest =>
    let colCs := rest.takeWhile (fun c => c != '`')
    if colCs.isEmpty then none
    else
      match rest.drop colCs.length with
      | '`' :: r2 =>
        match dropLit "==".data (dropSpaces r2) with
        | some r4 =>
          match dropSpaces r4 with
          | q :: r6 =>
            if q = '\'' ∨ q = '"' then
              let litCs := r6.takeWhile (fun c => c != q && c != '\n')
              match r6.drop litCs.length with
              | q2 :: r7 =>
                if q2 = q then some ((String.mk colCs, String.mk litCs), r7) else none
              | [] => none
            else none
          | [] => none
        | none => none
      | _ => none
  | _ => none

/-- All equality clauses of an expression, in order
(`re.findall` of the source's equality pattern). -/
def findEqPairsAux : Nat → List Char → List (String × String)
  | 0, _ => []
  | _ + 1, [] => []
  | fuel + 1, c :: rest =>
    match eqAttempt (c :: rest) with
    | some (p, r) => p :: findEqPairsAux fuel r
    | none => findEqPairsAux fuel rest

/-- All `` `col` == 'literal' `` pairs in an expression. -/
def findEqPairs (q : String) : List (String × String) :=
  findEqPairsAux (q.data.length + 1) q.data

/-- Model of `_has_string_equality` (its detection regex is the equality
pattern above). -/
def has_string_equality (q : String) : Bool := !(findEqPairs q).isEmpty

/-- A numeric comparison operator of the clause matcher. -/
inductive CmpOp
  | ge
  | le
  | gt
  | lt
deriving DecidableEq

/-- Parse a numeric literal `[0-9]+(\.[0-9]+)?` as an exact rational
(the model of the Python `float(val)`). -/
def parseNumLit (cs : List Char) : Option (Rat × List Char) :=
  let (ds, r1) := takeDigits cs
  if ds.isEmpty then none
  else
    match r1 with
    | '.' :: r2 =>
      let (fs, r3) := takeDigits r2
      if fs.isEmpty then some ((digitsToNat ds : Rat), r1)
      else some (((digitsToNat ds * 10 ^ fs.length + digitsToNat fs : Nat) : Rat)
                   / ((10 ^ fs.length : Nat) : Rat), r3)
    | _ => some ((digitsToNat ds : Rat), r1)

/-- One attempt of the numeric-comparison pattern. -/
def numAttempt (cs : List Char) : Option ((String × CmpOp × Rat) × List Char) :=
  match cs with
  | '`' :: rest =>
    let colCs := rest.takeWhile (fun c => c != '`')
    if colCs.isEmpty then none
    else
      match rest.drop colCs.length with
      | '`' :: r2 =>
        let r3 := dropSpaces r2
        let opParse : Option (CmpOp × List Char) :=
          match dropLit ">=".data r3 with
          | some r => some (.ge, r)
          | none =>
            match dropLit "<=".data r3 with
            | some r => some (.le, r)
            | none =>
              match r3 with
              | '>' :: r => some (.gt, r)
              | '<' :: r => some (.lt, r)
              | _ => none
        match opParse with
        | some (op, r4) =>
          match parseNumLit (dropSpaces r4) with
          | some (v, r5) => some ((String.mk colCs, op, v), r5)
          | none => none
        | none => none
      | _ => none
  | _ => none

/-- All numeric comparison clauses of an expression, in order. -/
def findNumClausesAux : Nat → List Char → List (String × CmpOp × Rat)
  | 0, _ => []
  | _ + 1, [] => []
  | fuel + 1, c :: rest =>
    match numAttempt (c :: rest) with
    | some (p, r) => p :: findNumClausesAux fuel r
    | none => findNumClausesAux fuel rest

/-- All `` `col` >= 123 ``-shaped clauses in an expression. -/
def findNumClauses (q : String) : List (String × CmpOp × Rat) :=
  findNumClausesAux (q.data.length + 1) q.data

/-- The string-predicate kind of a `.str.*` clause. -/
inductive StrOpKind
  | opContains
  | opMatch
  | opFullmatch
  | opStartswith
  | opEndswith
deriving DecidableEq

/-- The source spelling of each string-predicate kind. -/
def strOpName : StrOpKind → String
  | .opContains => "contains"
  | .opMatch => "match"
  | .opFullmatch => "fullmatch"
  | .opStartswith => "startswith"
  | .opEndswith => "endswith"

/-- A recognized `.str.*` clause: column, kind, pattern literal and the
optional `case=` / `na=` keyword arguments. -/
structure StrOpClause where
  col : String
  op : StrOpKind
  pat : String
  caseArg : Option Bool
  naArg : Option Bool
deriving DecidableEq

/-- Parse the optional `.astype(str | "str" | "string")` group with a given
literal matcher (case-insensitive under `re.I`, case-sensitive otherwise),
trying the group-present alternatives first like the greedy optional group
does; the continuation decides whether an alternative survives. -/
def tryAstypeWith (lit : List Char → List Char → Option (List Char))
    (cs : List Char) (k : List Char → Option α) : Option α :=
  let withAstype : Option α :=
    match lit ".astype(".data cs with
    | some r1 =>
      let r2 := dropSpaces r1
      let bare : Option α :=
        match lit "str".data r2 with
        | some r3 =>
          match dropSpaces r3 with
          | ')' :: r4 => k r4
          | _ => none
        | none => none
      let quoted : Option α :=
        match r2 with
        | q :: r3 =>
          if q = '\'' ∨ q = '"' then
            let inner : Option (List Char) :=
              match lit "str".data r3 with
              | some r4 =>
                match r4 with
                | q2 :: r5 => if q2 = '\'' ∨ q2 = '"' then some r5 else none
                | [] => none
              | none => none
            let inner2 : Option (List Char) :=
              match lit "string".data r3 with
              | some r4 =>
                match r4 with
                | q2 :: r5 => if q2 = '\'' ∨ q2 = '"' then some r5 else none
                | [] => none
              | none => none
            let closeUp : List Char → Option α := fun r5 =>
              match dropSpaces r5 with
              | ')' :: r6 => k r6
              | _ => none
            match inner with
            | some r5 =>
              match closeUp r5 with
              | some a => some a
              | none => inner2 >>= closeUp
            | none => inner2 >>= closeUp
          else none
        | [] => none
      match bare with
      | some a => some a
      | none => quoted
    | none => none
  match withAstype with
  | some a => some a
  | none => k cs

/-- The `astype` group under `re.I` (the clause matcher's pattern). -/
def tryAstypeCI (cs : List Char) (k : List Char → Option α) : Option α :=
  tryAstypeWith dropLitCI cs k

/-- Parse `\s*,\s*case\s*=\s*(True|False)` case-insensitively. -/
def parseKwArgCI (name : List Char) (cs : List Char) : Option (Bool × List Char) :=
  match dropSpaces cs with
  | ',' :: r1 =>
    match dropLitCI name (dropSpaces r1) with
    | some r2 =>
      match dropSpaces r2 with
      | '=' :: r3 =>
        let r4 := dropSpaces r3
        match dropLitCI "True".data r4 with
        | some r5 => some (true, r5)
        | none =>
          match dropLitCI "False".data r4 with
          | some r5 => some (false, r5)
          | none => none
      | _ => none
    | none => none
  | _ => none

/-- The lazily captured pattern literal: candidate split points at each
occurrence of the closing quote (the dot of `(.*?)` cannot cross a newline),
in order of increasing capture length. -/
def lazyQuoteSplits (q : Char) : List Char → List (List Char × List Char)
  | [] => []
  | c :: rest =>
    if c = '\n' then []
    else if c = q then ([], rest) :: (lazyQuoteSplits q rest).map (fun p => (c :: p.1, p.2))
    else (lazyQuoteSplits q rest).map (fun p => (c :: p.1, p.2))

/-- After the pattern literal's closing quote: the optional `case=` and `na=`
keyword groups (greedy, with backtracking into absence) and the closing
parenthesis. -/
def strOpTail (cs : List Char) : Option ((Option Bool × Option Bool) × List Char) :=
  let closeUp : Option Bool → Option Bool → List Char → Option ((Option Bool × Option Bool) × List Char) :=
    fun cb nb r =>
      match dropSpaces r with
      | ')' :: r2 => some ((cb, nb), r2)
      | _ => none
  let naStage : Option Bool → List Char → Option ((Option Bool × Option Bool) × List Char) :=
    fun cb r =>
      match parseKwArgCI "na".data r with
      | some (b, r2) =>
        match closeUp cb (some b) r2 with
        | some out => some out
        | none => closeUp cb none r
      | none => closeUp cb none r
  match parseKwArgCI "case".data cs with
  | some (b, r2) =>
    match naStage (some b) r2 with
    | some out => some out
    | none => naStage none cs
  | none => naStage none cs

/-- One attempt of the unified `.str.*` clause pattern (`str_op_pat`,
regex_executor.py lines 146-155), compiled with `re.I`: backtick column,
optional `astype`, `.str.<op>(`, optional raw-string prefix, quoted pattern,
optional `case=` / `na=`, closing parenthesis. -/
def strOpAttempt (cs : List Char) : Option (StrOpClause × List Char) :=
  match cs with
  | '`' :: rest =>
    let colCs := rest.takeWhile (fun c => c != '`')
    if colCs.isEmpty then none
    else
      match rest.drop colCs.length with
      | '`' :: r2 =>
        tryAstypeCI (dropSpaces r2) (fun r3 =>
          match dropLitCI ".str.".data (dropSpaces r3) with
          | some r4 =>
            let tryOp : StrOpKind → Option (StrOpClause × List Char) := fun op =>
              match dropLitCI (strOpName op).data r4 with
              | some r5 =>
                match r5 with
                | '(' :: r6 =>
                  let r7 := dropSpaces r6
                  let afterRaw : List Char → Option (StrOpClause × List Char) := fun r8 =>
                    match r8 with
                    | q :: r9 =>
                      if q = '\'' ∨ q = '"' then
                        (lazyQuoteSplits q r9).firstM (fun (patCs, r10) =>
                          (strOpTail r10).map (fun ((cb, nb), r11) =>
                            ({ col := String.mk colCs, op := op,
                               pat := String.mk patCs, caseArg := cb, naArg := nb }, r11)))
                      else none
                    | [] => none
                  match r7 with
                  | 'r' :: r8 =>
                    match afterRaw r8 with
                    | some out => some out
                    | none => afterRaw r7
                  | 'R' :: r8 =>
                    match afterRaw r8 with
                    | some out => some out
                    | none => afterRaw r7
                  | _ => afterRaw r7
                | _ => none
              | none => none
            match tryOp .opContains with
            | some out => some out
            | none =>
              match tryOp .opMatch with
              | some out => some out
              | none =>
                match tryOp .opFullmatch with
                | some out => some out
                | none =>
                  match tryOp .opStartswith with
                  | some out => some out
                  | none => tryOp .opEndswith
          | none => none)
      | _ => none
  | _ => none

/-- All `.str.*` clauses of an expression, in order. -/
def findStrOpsAux : Nat → List Char → List StrOpClause
  | 0, _ => []
  | _ + 1, [] => []
  | fuel + 1, c :: rest =>
    match strOpAttempt (c :: rest) with
    | some (p, r) => p :: findStrOpsAux fuel r
    | none => findStrOpsAux fuel rest

/-- All recognized `.str.*` clauses in an expression. -/
def findStrOps (q : String) : List StrOpClause :=
  findStrOpsAux (q.data.length + 1) q.data

/-! ### `_mask_from_clauses` and the tiered evaluator -/

/-- Model of `pd.to_numeric(s, errors="coerce")` on a cell, restricted to
plain decimal literals with an optional sign (the shapes filter data
exercises); anything else coerces to NaN (`none`). -/
def toNumericCell (cell : Cell) : Option Rat :=
  match cell with
  | none => none
  | some s =>
    let cs := pyStripChars s.data
    let (neg, cs) := match cs with
      | '-' :: r => (true, r)
      | '+' :: r => (false, r)
      | r => (false, r)
    let (ds, r1) := takeDigits cs
    let fin : Option Rat :=
      match r1 with
      | [] => if ds.isEmpty then none else some ((digitsToNat ds : Nat) : Rat)
      | '.' :: r2 =>
        let (fs, r3) := takeDigits r2
        if r3.isEmpty ∧ ¬(ds.isEmpty ∧ fs.isEmpty) then
          some (((digitsToNat ds * 10 ^ fs.length + digitsToNat fs : Nat) : Rat)
                  / ((10 ^ fs.length : Nat) : Rat))
        else none
      | _ => none
    fin.map (fun v => if neg then -v else v)

/-- The equality clause's mask: string column casefolded equality with
missing values reading as `False` (`.fillna(False)`). -/
def eqMaskCI (df : DataFrame) (col val : String) : Mask :=
  (getCol df col).map (fun cell =>
    match cell with
    | some s => pyLower s == pyLower val
    | none => false)

/-- A numeric clause's mask: `s.notna() & (s <op> v)` after numeric
coercion. -/
def numMask (df : DataFrame) (col : String) (op : CmpOp) (v : Rat) : Mask :=
  (getCol df col).map (fun cell =>
    match toNumericCell cell with
    | some r =>
      match op with
      | .ge => v ≤ r
      | .le => r ≤ v
      | .gt => v < r
      | .lt => r < v
    | none => false)

/-- A `.str.*` clause's mask: defaults are case-insensitive and
missing-never-matches; `contains`/`match`/`fullmatch` consult the regex
engine, the prefix and suffix predicates compare plain strings (lower-casing
both operands in the case-insensitive branch, as the source does). -/
def strOpMask (eng : RegexEngine) (df : DataFrame) (cl : StrOpClause) : Mask :=
  let case := cl.caseArg.getD false
  let na := cl.naArg.getD false
  let fl := if case then 0 else reIGNORECASE
  (getCol df cl.col).map (fun cell =>
    match cell with
    | none => na
    | some s =>
      match cl.op with
      | .opContains => eng.searchB cl.pat fl s
      | .opMatch => eng.matchB cl.pat fl s
      | .opFullmatch => eng.fullmatchB cl.pat fl s
      | .opStartswith =>
        if case then cl.pat.isPrefixOf s
        else (pyLower cl.pat).isPrefixOf (pyLower s)
      | .opEndswith =>
        if case then (cl.pat.data).isSuffixOf s.data
        else ((pyLower cl.pat).data).isSuffixOf ((pyLower s).data))

/-- The `_and` accumulator of `_mask_from_clauses`: the first recognized
clause starts the mask, later ones AND into it. -/
def andStepMask (acc : Option Mask) (cur : Mask) : Option Mask :=
  match acc with
  | none => some cur
  | some a => some (maskAnd a cur)

/-- Model of `_mask_from_clauses`: AND together every recognized clause
(equality, then numeric, then `.str.*`, in source order) whose column exists;
`none` when nothing was recognized. -/
def mask_from_clauses (eng : RegexEngine) (df : DataFrame) (q : String) : Option Mask :=
  ((findStrOps q).foldl
    (fun acc cl => if cl.col ∈ df.headers then andStepMask acc (strOpMask eng df cl) else acc)
    ((findNumClauses q).foldl
      (fun acc p => if p.1 ∈ df.headers then andStepMask acc (numMask df p.1 p.2.1 p.2.2) else acc)
      ((findEqPairs q).foldl
        (fun acc p => if p.1 ∈ df.headers then andStepMask acc (eqMaskCI df p.1 p.2) else acc)
        (none : Option Mask))))

/-! ### Top-level OR splitting (`_split_top_level`, lines 202-235) -/

/-- The logical-word test the splitter performs at the current position,
`re.match(r'(?i)\bWORD\b', expr[i:])`: the leading boundary sits at the start
of the slice, so it holds exactly when the first character is a word
character — always, for a word that itself starts with one; the trailing
boundary requires the next character to be a non-word one (or the end). -/
def wordMatchLen (word : List Char) (cs : List Char) : Option Nat :=
  match dropLitCI word cs with
  | some r => if boundaryAfter r then some word.length else none
  | none => none

/-- The splitter's scan: one pass tracking single-quote state, double-quote
state and parenthesis depth, with backslash-escape handling; the word check
runs in the unquoted state after the depth update, and a split point closes
the current buffer. -/
def splitTopLevelAux (word : List Char) :
    Nat → Bool → Bool → Nat → List Char → List Char → List (List Char)
  | 0, _, _, _, buf, rest => [buf ++ rest]
  | _ + 1, _, _, _, buf, [] => [buf]
  | fuel + 1, inS, inD, depth, buf, c :: rest =>
    if c = '\\' ∧ rest ≠ [] then
      match rest with
      | c2 :: r2 => splitTopLevelAux word fuel inS inD depth (buf ++ [c, c2]) r2
      | [] => [buf ++ [c]]
    else if ¬inD ∧ c = '\'' then
      splitTopLevelAux word fuel (!inS) inD depth (buf ++ [c]) rest
    else if ¬inS ∧ c = '"' then
      splitTopLevelAux word fuel inS (!inD) depth (buf ++ [c]) rest
    else if ¬inS ∧ ¬inD then
      let depth' := if c = '(' then depth + 1
        else if c = ')' ∧ depth > 0 then depth - 1
        else depth
      match wordMatchLen word (c :: rest) with
      | some len =>
        if depth' = 0 then
          buf :: splitTopLevelAux word fuel inS inD depth' [] ((c :: rest).drop len)
        else splitTopLevelAux word fuel inS inD depth' (buf ++ [c]) rest
      | none => splitTopLevelAux word fuel inS inD depth' (buf ++ [c]) rest
    else splitTopLevelAux word fuel inS inD depth (buf ++ [c]) rest

/-- Model of `_split_top_level`: split on a top-level logical word, strip the
parts and drop the empty ones. -/
def split_top_level (expr : String) (word : String) : List String :=
  ((splitTopLevelAux word.data (expr.data.length + 1) false false 0 [] expr.data).map
    (fun p => String.mk (pyStripChars p))).filter (fun p => p != "")

/-- Whole-word replacement with a symbol, the model of
`re.sub(r'(?i)\bWORD\b', sym, q)`: here the scan covers the whole string, so
the leading boundary is the real one. -/
def replaceWordAux (word : List Char) (sym : Char) : Nat → Option Char → List Char → List Char
  | 0, _, rest => rest
  | _ + 1, _, [] => []
  | fuel + 1, prev, c :: rest =>
    match (if boundaryBefore prev then wordMatchLen word (c :: rest) else none) with
    | some len =>
      sym :: replaceWordAux word sym fuel (some ((c :: rest).getD (len - 1) c)) ((c :: rest).drop len)
    | none => c :: replaceWordAux word sym fuel (some c) rest

/-- Model of the tier-2 rewrite: standalone `and` → `&`, then standalone
`or` → `|`. -/
def rewrite_and_or (q : String) : String :=
  let step1 := String.mk (replaceWordAux "and".data '&' (q.data.length + 1) none q.data)
  String.mk (replaceWordAux "or".data '|' (step1.data.length + 1) none step1.data)

/-! ### `_eval_basic_query` (lines 239-289) -/

/-- Model of `_eval_basic_query`: strict evaluation, the `and`/`or` rewrite
retry, the zero-hit case-insensitive fallback for expressions with string
equalities, the AND-clause fallback, and the final all-true mask, returning
`(mask, path_tag, used_query)`. -/
def eval_basic_query (qe : QueryEngine) (eng : RegexEngine) (df : DataFrame)
    (q : String) : Mask × String × String :=
  match qe.run df q with
  | some mask =>
    if maskSum mask = 0 ∧ has_string_equality q then
      match mask_from_clauses eng df q with
      | some mci => (mci, "query_zero_and_fallback", q)
      | none => (mask, "query", q)
    else (mask, "query", q)
  | none =>
    let rew := rewrite_and_or q
    match qe.run df rew with
    | some mask =>
      if maskSum mask = 0 ∧ has_string_equality q then
        match mask_from_clauses eng df q with
        | some mci => (mci, "query_rewrite_zero_and_fallback", rew)
        | none => (mask, "query_rewrite", rew)
      else (mask, "query_rewrite", rew)
    | none =>
      match mask_from_clauses eng df q with
      | some m => (m, "fallback_and", q)
      | none => (allTrueMask df, "all_false", q)

/-! ### Row-number clauses (lines 319-401) -/

/-- The `== N` tail shared by every row-number spelling: optional whitespace,
`==`, optional whitespace, a digit run. -/
def rownumTail (cs : List Char) : Option (Nat × List Char) :=
  match dropLit "==".data (dropSpaces cs) with
  | some r2 =>
    let (ds, r3) := takeDigits (dropSpaces r2)
    if ds.isEmpty then none else some (digitsToNat ds, r3)
  | none => none

/-- One attempt of `_ROWNUM_RE` (case-insensitive, no word boundaries):
optionally backticked `__rownum__`, or `row` with an optional
`_number`/`number` suffix, or `index`, each followed by `== N`.  Alternatives
and optional groups backtrack in the regex's preference order. -/
def rownumAttempt (cs : List Char) : Option (Nat × List Char) :=
  let alt1 : Option (Nat × List Char) :=
    let core : List Char → Option (Nat × List Char) := fun r =>
      match dropLitCI "__rownum__".data r with
      | some r2 =>
        match r2 with
        | '`' :: r3 =>
          match rownumTail r3 with
          | some out => some out
          | none => rownumTail r2
        | _ => rownumTail r2
      | none => none
    match cs with
    | '`' :: r =>
      match core r with
      | some out => some out
      | none => core cs
    | _ => core cs
  let alt2 : Option (Nat × List Char) :=
    match dropLitCI "row".data cs with
    | some r =>
      let withSuffix : Option (Nat × List Char) :=
        match dropLitCI "_number".data r with
        | some r2 => rownumTail r2
        | none => none
      let withSuffix2 : Option (Nat × List Char) :=
        match dropLitCI "number".data r with
        | some r2 => rownumTail r2
        | none => none
      match withSuffix with
      | some out => some out
      | none =>
        match withSuffix2 with
        | some out => some out
        | none => rownumTail r
    | none => none
  let alt3 : Option (Nat × List Char) :=
    match dropLitCI "index".data cs with
    | some r => rownumTail r
    | none => none
  match alt1 with
  | some out => some out
  | none =>
    match alt2 with
    | some out => some out
    | none => alt3

/-- The substitution scan of `_remove_rownum_clauses`: each match is replaced
by the text `" True "` and its number collected, in order. -/
def removeRownumAux : Nat → List Char → List Char × List Nat
  | 0, rest => (rest, [])
  | _ + 1, [] => ([], [])
  | fuel + 1, c :: rest =>
    match rownumAttempt (c :: rest) with
    | some (n, r) =>
      let (out, ns) := removeRownumAux fuel r
      (" True ".data ++ out, n :: ns)
    | none =>
      let (out, ns) := removeRownumAux fuel rest
      (c :: out, ns)

/-- Model of `_remove_rownum_clauses`. -/
def remove_rownum_clauses (expr : String) : String × List Nat :=
  let (out, ns) := removeRownumAux (expr.data.length + 1) expr.data
  (String.mk out, ns)

/-- Python's `pos = n - 1; 0 <= pos < n_rows` guard on a 1-based row number
(`n = 0` gives `pos = -1`, which is skipped). -/
def rownumPick (nrows : Nat) (n : Nat) : Option Nat :=
  if 1 ≤ n ∧ n - 1 < nrows then some (n - 1) else none

/-- Build the `isin(picks)` mask over the dataset (all-false when `picks` is
empty, matching the source's explicit branch). -/
def picksMask (df : DataFrame) (picks : List Nat) : Mask :=
  if picks.isEmpty then allFalseMask df
  else (List.range df.nrows).map (fun i => picks.contains i)

/-- Model of `_mask_group_with_rownum` (lines 344-386): strip the row-number
clauses, evaluate the residue, then pick globally (residue reduced to
`True`), within the base set, or return the base mask when there was no
row-number clause. -/
def mask_group_with_rownum (qe : QueryEngine) (eng : RegexEngine) (df : DataFrame)
    (group_expr : String) : Mask × String :=
  let er := remove_rownum_clauses group_expr
  let e := if pyStrip er.1 = "" then "True" else pyStrip er.1
  let res := eval_basic_query qe eng df e
  let base := res.1
  let path := res.2.1
  if er.2 = [] then (base, path)
  else if pyLower e = "true" then
    let picks := er.2.filterMap (rownumPick df.nrows)
    (picksMask df picks, "rownum_only")
  else
    let idxs := maskPositions base
    let picks := er.2.filterMap (fun n =>
      if 1 ≤ n ∧ n - 1 < idxs.length then some (idxs.getD (n - 1) 0) else none)
    (picksMask df picks, path ++ "+rownum")

/-- Model of `_mask_from_query_with_rownum` (lines 389-401): split on
top-level OR (falling back to the whole expression when the split is empty)
and union the per-group masks. -/
def mask_from_query_with_rownum (qe : QueryEngine) (eng : RegexEngine)
    (df : DataFrame) (norm : String) : Mask :=
  let parts0 := split_top_level norm "or"
  let parts := if parts0.isEmpty then [norm] else parts0
  let acc := parts.foldl
    (fun (acc : Option Mask) p =>
      let m := (mask_group_with_rownum qe eng df p).1
      match acc with
      | none => some m
      | some a => some (maskOr a m))
    none
  match acc with
  | none => allTrueMask df
  | some a => a

/-! ### `_normalize_row_filter` (lines 50-92) -/

/-- Stable sort of the headers by length, longest first (`sorted(headers,
key=len, reverse=True)` keeps the original order of equal-length names). -/
def sortByLenDesc (headers : List String) : List String :=
  let insert : String → List String → List String := fun h acc =>
    match acc with
    | [] => [h]
    | a :: _ => if h.length < a.length then a :: (sortByLenDesc.go h acc) else h :: acc
  headers.foldr (fun h acc => insert h acc) []
where
  /-- Insert behind every strictly longer or equally long element. -/
  go (h : String) : List String → List String
    | [] => [h]
    | a :: rest => if h.length < a.length then a :: go h rest else h :: a :: rest

/-- One full pass of the quoted-column substitution for one column name
(quote, the exact name, the same quote, not adjacent to backticks, becomes
the backticked name).  The lookbehind and lookahead read the original
string. -/
def subQuotedColAux (col : List Char) : Nat → Option Char → List Char → List Char
  | 0, _, rest => rest
  | _ + 1, _, [] => []
  | fuel + 1, prev, c :: rest =>
    if (c = '\'' ∨ c = '"') ∧ prev ≠ some '`' then
      match dropLit col rest with
      | some r1 =>
        match r1 with
        | c2 :: r2 =>
          if c2 = c ∧ r2.head? ≠ some '`' then
            '`' :: (col ++ '`' :: subQuotedColAux col fuel (some c2) r2)
          else c :: subQuotedColAux col fuel (some c) rest
        | [] => c :: subQuotedColAux col fuel (some c) rest
      | none => c :: subQuotedColAux col fuel (some c) rest
    else c :: subQuotedColAux col fuel (some c) rest

/-- The lookahead of the bare-column substitution: after optional whitespace,
an accessor (`.str` / `.astype` / `.isin` with a trailing word boundary), a
closing bracket, a bounded `in` / `not in`, or a comparison operator. -/
def bareColLookahead (colLast : Option Char) (after : List Char) : Bool :=
  let a := dropSpaces after
  let spaceSkipped := decide (after.length ≠ a.length)
  let bdBefore := spaceSkipped ||
    (match colLast with
     | some c => !isWordChar c
     | none => true)
  let chkDotWord : String → Bool := fun w =>
    match dropLit w.data a with
    | some r => boundaryAfter r
    | none => false
  chkDotWord ".str" || chkDotWord ".astype" || chkDotWord ".isin"
    || a.head? == some ')' || a.head? == some ']'
    || (bdBefore &&
        (match dropLit "in".data a with
         | some r => boundaryAfter r
         | none => false))
    || (bdBefore &&
        (match dropLit "not".data a with
         | some r =>
           let r2 := dropSpaces r
           decide (r.length ≠ r2.length) &&
             (match dropLit "in".data r2 with
              | some r3 => boundaryAfter r3
              | none => false)
         | none => false))
    || (dropLit "==".data a).isSome || (dropLit "!=".data a).isSome
    || (dropLit ">=".data a).isSome || (dropLit "<=".data a).isSome
    || a.head? == some '>' || a.head? == some '<'

/-- One full pass of the bare-column substitution for one column name (the
name not preceded by a backtick, double quote or word character, followed by
the lookahead above, becomes the backticked name). -/
def subBareColAux (col : List Char) : Nat → Option Char → List Char → List Char
  | 0, _, rest => rest
  | _ + 1, _, [] => []
  | fuel + 1, prev, c :: rest =>
    let prevOk := match prev with
      | none => true
      | some p => p ≠ '`' ∧ p ≠ '"' ∧ ¬isWordChar p
    if prevOk then
      match dropLit col (c :: rest) with
      | some after =>
        if bareColLookahead col.getLast? after then
          '`' :: (col ++ '`' :: subBareColAux col fuel (col.getLast?.getD c) after)
        else c :: subBareColAux col fuel (some c) rest
      | none => c :: subBareColAux col fuel (some c) rest
    else c :: subBareColAux col fuel (some c) rest

/-- The raw-string insertion pass: `.str.contains(` / `.match(` /
`.fullmatch(` / `.replace(` followed by optional whitespace and a quote gains
an `r` before the quote (case-sensitive scan). -/
def subRawStrAux : Nat → List Char → List Char
  | 0, rest => rest
  | _ + 1, [] => []
  | fuel + 1, c :: rest =>
    let attempt : Option (List Char × List Char) :=
      match dropLit ".str.".data (c :: rest) with
      | some r1 =>
        let tryOp : String → Option (List Char × List Char) := fun w =>
          match dropLit w.data r1 with
          | some r2 =>
            match r2 with
            | '(' :: r3 =>
              let sp := r3.takeWhile isPySpace
              match r3.drop sp.length with
              | q :: r5 =>
                if q = '\'' ∨ q = '"' then
                  some (".str.".data ++ w.data ++ '(' :: (sp ++ ['r', q]), r5)
                else none
              | [] => none
            | _ => none
          | none => none
        match tryOp "contains" with
        | some out => some out
        | none =>
          match tryOp "match" with
          | some out => some out
          | none =>
            match tryOp "fullmatch" with
            | some out => some out
            | none => tryOp "replace"
      | none => none
    match attempt with
    | some (emitted, r) => emitted ++ subRawStrAux fuel r
    | none => c :: subRawStrAux fuel rest

/-- The `astype` canonicalization passes: `.astype( str )` and
`.astype( "str" )` (either quote) both become `.astype('string')`. -/
def subAstypeAux : Nat → List Char → List Char
  | 0, rest => rest
  | _ + 1, [] => []
  | fuel + 1, c :: rest =>
    let attempt : Option (List Char) :=
      match dropLit ".astype(".data (c :: rest) with
      | some r1 =>
        let bare : Option (List Char) :=
          match dropLit "str".data (dropSpaces r1) with
          | some r2 =>
            match dropSpaces r2 with
            | ')' :: r3 => some r3
            | _ => none
          | none => none
        let quoted : Option (List Char) :=
          match dropSpaces r1 with
          | q :: r2 =>
            if q = '\'' ∨ q = '"' then
              match dropLit "str".data r2 with
              | some (q2 :: r3) =>
                if q2 = '\'' ∨ q2 = '"' then
                  match dropSpaces r3 with
                  | ')' :: r4 => some r4
                  | _ => none
                else none
              | _ => none
            else none
          | [] => none
        match bare with
        | some r => some r
        | none => quoted
      | none => none
    match attempt with
    | some r => ".astype('string')".data ++ subAstypeAux fuel r
    | none => c :: subAstypeAux fuel rest

/-- Remove `\s*,\s*case\s*=\s*(True|False)` occurrences (case-sensitive), the
first inner rewrite of `_strip_case_for_prefix`. -/
def stripCaseCommaAux : Nat → List Char → List Char
  | 0, rest => rest
  | _ + 1, [] => []
  | fuel + 1, c :: rest =>
    let attempt : Option (List Char) :=
      match dropSpaces (c :: rest) with
      | ',' :: r1 =>
        match dropLit "case".data (dropSpaces r1) with
        | some r2 =>
          match dropSpaces r2 with
          | '=' :: r3 =>
            let r4 := dropSpaces r3
            match dropLit "True".data r4 with
            | some r5 => some r5
            | none => dropLit "False".data r4
          | _ => none
        | none => none
      | _ => none
    match attempt with
    | some r => stripCaseCommaAux fuel r
    | none => c :: stripCaseCommaAux fuel rest

/-- Remove `case\s*=\s*(True|False)\s*,\s*` occurrences, the second inner
rewrite of `_strip_case_for_prefix`. -/
def stripCommaCaseAux : Nat → List Char → List Char
  | 0, rest => rest
  | _ + 1, [] => []
  | fuel + 1, c :: rest =>
    let attempt : Option (List Char) :=
      match dropLit "case".data (c :: rest) with
      | some r1 =>
        match dropSpaces r1 with
        | '=' :: r2 =>
          let r3 := dropSpaces r2
          let afterVal : Option (List Char) :=
            match dropLit "True".data r3 with
            | some r4 => some r4
            | none => dropLit "False".data r3
          match afterVal with
          | some r4 =>
            match dropSpaces r4 with
            | ',' :: r5 => some (dropSpaces r5)
            | _ => none
          | none => none
        | _ => none
      | none => none
    match attempt with
    | some r => stripCommaCaseAux fuel r
    | none => c :: stripCommaCaseAux fuel rest

/-- The prefix/suffix `case=` stripping pass: `.str.startswith(...)` or
`.str.endswith(...)` with a parenthesis-free argument list is re-emitted with
the leading whitespace of the list dropped and the `case=` keyword removed by
the two rewrites above. -/
def subStripPrefixCaseAux : Nat → List Char → List Char
  | 0, rest => rest
  | _ + 1, [] => []
  | fuel + 1, c :: rest =>
    let attempt : Option (List Char × List Char) :=
      match dropLit ".str.".data (c :: rest) with
      | some r1 =>
        let tryOp : String → Option (List Char × List Char) := fun w =>
          match dropLit w.data r1 with
          | some ('(' :: r3) =>
            let r4 := dropSpaces r3
            let inner := r4.takeWhile (fun ch => ch != ')')
            match r4.drop inner.length with
            | ')' :: r5 =>
              let inner2 := stripCommaCaseAux (inner.length + 1)
                (stripCaseCommaAux (inner.length + 1) inner)
              some (".str.".data ++ w.data ++ '(' :: (inner2 ++ [')']), r5)
            | _ => none
          | _ => none
        match tryOp "startswith" with
        | some out => some out
        | none => tryOp "endswith"
      | none => none
    match attempt with
    | some (emitted, r) => emitted ++ subStripPrefixCaseAux fuel r
    | none => c :: subStripPrefixCaseAux fuel rest

/-- Model of `_normalize_row_filter`: the quoted-column and bare-column
backticking passes (longest column names first), the raw-string insertion,
the `astype` canonicalization and the prefix/suffix `case=` stripping, in
source order.  An empty query is returned unchanged. -/
def normalize_row_filter (query : String) (headers : List String) : String :=
  if query = "" then query
  else
    let sorted := sortByLenDesc headers
    let q1 := sorted.foldl
      (fun (cs : List Char) col => subQuotedColAux col.data (cs.length + 1) none cs)
      query.data
    let q2 := sorted.foldl
      (fun (cs : List Char) col => subBareColAux col.data (cs.length + 1) none cs)
      q1
    let q3 := subRawStrAux (q2.length + 1) q2
    let q4 := subAstypeAux (q3.length + 1) q3
    let q5 := subStripPrefixCaseAux (q4.length + 1) q4
    String.mk q5

/-! ### `_ensure_mask_from_query` (lines 405-440) -/

/-- The soft-recall shape test, `re.fullmatch` of optional whitespace, an
optionally backticked run of letters, digits, underscores and spaces, `==`,
and a quoted non-empty literal (lazy, stopping at the first quote character
followed only by whitespace); the captured column is stripped. -/
def softRecallMatch (query : String) : Option (String × String) :=
  let cs := dropSpaces query.data
  let afterTick := match cs with
    | '`' :: r => r
    | r => r
  let isColChar : Char → Bool := fun c =>
    c.isAlpha || c.isDigit || c = '_' || c = ' '
  let colCs := afterTick.takeWhile isColChar
  if colCs.isEmpty then none
  else
    let r1 := afterTick.drop colCs.length
    let r2 := match r1 with
      | '`' :: r => r
      | r => r
    match dropLit "==".data (dropSpaces r2) with
    | some r3 =>
      match dropSpaces r3 with
      | q :: r4 =>
        if q = '\'' ∨ q = '"' then
          let rec firstClose : List Char → List Char → Option (String × String) :=
            fun acc rem =>
              match rem with
              | [] => none
              | c :: rest =>
                if c = '\n' then none
                else if (c = '\'' ∨ c = '"') ∧ ¬acc.isEmpty ∧ (dropSpaces rest).isEmpty then
                  some (pyStrip (String.mk colCs), String.mk acc.reverse)
                else firstClose (c :: acc) rest
          firstClose [] r4
        else none
      | [] => none
    | none => none

/-- The soft-recall case-insensitive equality mask,
`(lhs.notna() & (lhs == rhs)).fillna(False)` over the casefolded column. -/
def softRecallMask (df : DataFrame) (col val : String) : Mask :=
  (getCol df col).map (fun cell =>
    match cell with
    | some s => pyLower s == pyLower val
    | none => false)

/-- Model of `_ensure_mask_from_query`: an empty or blank filter selects
everything; otherwise normalize, evaluate the OR groups, and apply the
soft-recall retry when the union selected nothing and the original query is a
single equality shape naming a real column. -/
def ensure_mask_from_query (qe : QueryEngine) (eng : RegexEngine) (df : DataFrame)
    (query : Option String) : Mask :=
  match query with
  | none => allTrueMask df
  | some q =>
    if pyStrip q = "" then allTrueMask df
    else
      let norm := normalize_row_filter q df.headers
      let mask := mask_from_query_with_rownum qe eng df norm
      if maskSum mask = 0 then
        match softRecallMatch q with
        | some (col, val) =>
          if col ∈ df.headers then softRecallMask df col val else mask
        | none => mask
      else mask

/-! ### Display-regex derivation (lines 443-510) -/

/-- The trivial match-all test `_MATCH_ALL_RE.match` (optional whitespace,
optional caret, `.*`, optional dollar, optional whitespace). -/
def match_all_form (p : String) : Bool :=
  let t := String.mk (pyStripChars p.data)
  t == ".*" || t == "^.*" || t == ".*$" || t == "^.*$"

/-- Python `re.escape` (3.7+ semantics): backslash-escape exactly the special
characters. -/
def reSpecialChars : List Char :=
  ['(', ')', '[', ']', '\x7b', '\x7d', '?', '*', '+', '-', '|', '^', '$',
   '\\', '.', '&', '~', '#', ' ', '\t', '\n', '\r', '\x0b', '\x0c']

/-- Escape a literal for embedding in a regex, as `re.escape` does. -/
def pyReEscape (s : String) : String :=
  String.mk (s.data.foldr
    (fun c acc => if reSpecialChars.contains c then '\\' :: c :: acc else c :: acc) [])

/-- The rewrite inside `_loose_token_regex`: every backslash followed by
whitespace (with the whitespace run taken greedily) becomes the separator
class `[-_.:/\s]*`. -/
def looseTokenAux : Nat → List Char → List Char
  | 0, rest => rest
  | _ + 1, [] => []
  | fuel + 1, c :: rest =>
    match c, rest with
    | '\\', c2 :: r2 =>
      if isPySpace c2 then "[-_.:/\\s]*".data ++ looseTokenAux fuel (r2.dropWhile isPySpace)
      else c :: looseTokenAux fuel rest
    | _, _ => c :: looseTokenAux fuel rest

/-- Model of `_loose_token_regex`: escape the token, then loosen the escaped
whitespace into the separator class. -/
def loose_token_regex (token : String) : String :=
  let esc := pyReEscape token
  String.mk (looseTokenAux (esc.data.length + 1) esc.data)

/-- Candidate splits of a lazy capture that must be followed by a literal
(the display pattern's misplaced backreference): one candidate per occurrence
of the literal, ordered by increasing capture length, the capture never
crossing a newline. -/
def lazyLitSplits (lit : List Char) : List Char → List (List Char × List Char)
  | [] => (match dropLit lit [] with
    | some r => [(([] : List Char), r)]
    | none => [])
  | c :: rest =>
    let here : List (List Char × List Char) :=
      match dropLit lit (c :: rest) with
      | some r => [(([] : List Char), r)]
      | none => []
    if c = '\n' then here
    else here ++ (lazyLitSplits lit rest).map (fun p => (c :: p.1, p.2))

/-- The `.*?\)` tail: lazily reach the first closing parenthesis, never
crossing a newline; returns the rest after it. -/
def lazyCloseParen : List Char → Option (List Char)
  | [] => none
  | c :: rest =>
    if c = ')' then some rest
    else if c = '\n' then none
    else lazyCloseParen rest

/-- One attempt of the display `.str.*` scanner (regex_executor.py lines
473-478).  This pattern is case-sensitive and, crucially, its `\2`
backreference points at the op group rather than the quote group: after the
opening quote the lazily captured value must be followed by the op word
itself, then anything up to a closing parenthesis.  Ordinary clauses like
`.str.contains('Jane')` therefore never match. -/
def displayStrOpAttempt (cs : List Char) :
    Option ((String × String × String) × List Char) :=
  match cs with
  | '`' :: rest =>
    let colCs := rest.takeWhile (fun c => c != '`')
    if colCs.isEmpty then none
    else
      match rest.drop colCs.length with
      | '`' :: r2 =>
        tryAstypeWith dropLit (dropSpaces r2) (fun r3 =>
          match dropLit ".str.".data (dropSpaces r3) with
          | some r4 =>
            let tryOp : String → Option ((String × String × String) × List Char) := fun w =>
              match dropLit w.data r4 with
              | some ('(' :: r6) =>
                match dropSpaces r6 with
                | q :: r8 =>
                  if q = '\'' ∨ q = '"' then
                    (lazyLitSplits w.data r8).firstM (fun (valCs, r9) =>
                      (lazyCloseParen r9).map (fun r10 =>
                        ((String.mk colCs, w, String.mk valCs), r10)))
                  else none
                | [] => none
              | _ => none
            match tryOp "contains" with
            | some out => some out
            | none =>
              match tryOp "match" with
              | some out => some out
              | none =>
                match tryOp "fullmatch" with
                | some out => some out
                | none =>
                  match tryOp "startswith" with
                  | some out => some out
                  | none => tryOp "endswith"
          | none => none)
      | _ => none
  | _ => none

/-- All display `.str.*` matches of an expression, in order. -/
def displayStrOpsAux : Nat → List Char → List (String × String × String)
  | 0, _ => []
  | _ + 1, [] => []
  | fuel + 1, c :: rest =>
    match displayStrOpAttempt (c :: rest) with
    | some (p, r) => p :: displayStrOpsAux fuel r
    | none => displayStrOpsAux fuel rest

/-- All display `.str.*` matches in an expression. -/
def displayStrOps (q : String) : List (String × String × String) :=
  displayStrOpsAux (q.data.length + 1) q.data

/-- Order-preserving deduplication of the referenced columns. -/
def dedupCols (cols : List String) : List String :=
  (cols.foldl (fun (acc : List String) c => if c ∈ acc then acc else acc ++ [c]) [])

/-- Model of `_display_regex_and_columns_from_row_filter`: collect display
tokens and referenced columns from the (already normalized) row filter — the
`.str.*` loop (whose matches require the misplaced backreference to resolve),
then equality literals (escaped), then numeric comparisons (columns only) —
and OR the tokens into one display regex. -/
def display_regex_and_columns_from_row_filter (row_filter : Option String) :
    Option String × List String :=
  match row_filter with
  | none => (none, [])
  | some q =>
    if q = "" then (none, [])
    else
      let strops := displayStrOps q
      let stropToks := strops.filterMap (fun (p : String × String × String) =>
        if p.2.2 ≠ "" then
          some (if p.2.1 = "startswith" then "^" ++ pyReEscape p.2.2
            else if p.2.1 = "endswith" then pyReEscape p.2.2 ++ "$"
            else if p.2.1 = "match" ∨ p.2.1 = "fullmatch" then p.2.2
            else loose_token_regex p.2.2)
        else none)
      let eqs := findEqPairs q
      let eqToks := eqs.filterMap (fun p => if p.2 ≠ "" then some (pyReEscape p.2) else none)
      let nums := findNumClauses q
      let cols := dedupCols (strops.map (fun p => p.1) ++ eqs.map (fun p => p.1)
        ++ nums.map (fun p => p.1))
      let tokens := stropToks ++ eqToks
      if tokens ≠ [] then
        (some ("(?:" ++ String.intercalate "|" tokens ++ ")"), cols)
      else (none, cols)

/-! ## `execute_plan` (regex_executor.py lines 536-925) -/

/-- The date-normalize sentinel test,
`sentinel.startswith("__DATE_NORMALIZE__(") and sentinel.endswith(")")`. -/
def is_date_normalize_sentinel (s : String) : Bool :=
  s.startsWith "__DATE_NORMALIZE__(" && s.endsWith ")"

/-- The result payload, modelling the fields of the source's result
dictionaries that this development reasons about.  The presentation-only keys
(`examples`, `head`, the duplicate `columns` list) are not modelled; the
`find` branch's nested `stats` dictionary is flattened.  `display_columns`
only exists in the plain-replace payload and is `none` elsewhere. -/
structure Payload where
  mode : String
  regex : String
  regex_source : String
  display_regex : Option String
  display_regex_source : Option String
  display_columns : Option (List String)
  flags : String
  columns_applied : List String
  row_filter : Option String
  row_filter_normalized : Option String
  mask_row_indices : List Nat
  total_matches : Nat
  per_column : List (String × Nat)
  changed_row_indices : List Nat
  head_hit_row_indices : List Nat
  result_rows_description : String
  result_rows_count : Nat
  result_rows_indices : List Nat
deriving DecidableEq

/-- Per-cell match count, `ser.str.count(rx).fillna(0)`. -/
def cellCountIn (eng : RegexEngine) (pat : String) (fl : Nat) (cell : Cell) : Nat :=
  match cell with
  | none => 0
  | some s => eng.countMatches pat fl s

/-- Per-cell substitution, `str.replace(rx, rep, regex=True)` (missing values
stay missing). -/
def cellSub (eng : RegexEngine) (pat : String) (fl : Nat) (rep : String) (cell : Cell) : Cell :=
  match cell with
  | none => none
  | some s => some (eng.subAll pat fl rep s)

/-- One iteration of the plain-replace loop for one column: count the
pre-substitution matches in the masked cells, and only when something matched
write the substituted masked cells back; returns the updated frame, the
column's count and its changed row labels. -/
def replaceColumn (eng : RegexEngine) (pat : String) (fl : Nat) (rep : String)
    (mask : Mask) (df : DataFrame) (c : String) : DataFrame × Nat × List Nat :=
  let colAll := getCol df c
  let counts := (List.range df.nrows).map
    (fun i => if maskGet mask i then cellCountIn eng pat fl (colAll.getD i none) else 0)
  let n := counts.sum
  if n = 0 then (df, 0, [])
  else
    let newCol := (List.range df.nrows).map
      (fun i => if maskGet mask i then cellSub eng pat fl rep (colAll.getD i none)
        else colAll.getD i none)
    (setCol df c newCol, n,
      (List.range df.nrows).filter
        (fun i => maskGet mask i && cellCountIn eng pat fl (colAll.getD i none) > 0))

/-- One step of the replace loop's column fold: thread the frame through
`replaceColumn` while accumulating the total count, the per-column counts and
the changed row labels (kept first-seen-first, without duplicates). -/
def replaceStep (eng : RegexEngine) (pat : String) (fl : Nat) (rep : String) (mask : Mask)
    (st : DataFrame × Nat × List (String × Nat) × List Nat) (c : String) :
    DataFrame × Nat × List (String × Nat) × List Nat :=
  let r := replaceColumn eng pat fl rep mask st.1 c
  (r.1, st.2.1 + r.2.1, st.2.2.1 ++ [(c, r.2.1)],
    st.2.2.2 ++ (r.2.2.filter (fun i => i ∉ st.2.2.2)))

/-- Model of `execute_plan`.  The date-normalize branch delegates to the
date-normalizer over the external parsing stack, so it enters the executor as
the parameter `dateBranch` (none of the theorems below exercises it: their
hypotheses exclude the sentinel replacement). -/
def execute_plan (qe : QueryEngine) (eng : RegexEngine)
    (dateBranch : DataFrame → String → String → Option (List String) → String →
      Option String → Nat → DataFrame × Payload)
    (df : DataFrame) (intent pattern0 flags : String) (columns : Option (List String))
    (replacement : Option String) (row_filter : Option String) (head_n : Nat) :
    DataFrame × Payload :=
  -- Coalesce an empty pattern to match-all for FIND
  let pattern := if pattern0 = "" ∧ pyLower intent = "find" then "^.*$" else pattern0
  let mask := ensure_mask_from_query qe eng df row_filter
  let cols0 := auto_columns df intent pattern columns
  let norm_rf : Option String := match row_filter with
    | some rf => if rf = "" then none else some (normalize_row_filter rf df.headers)
    | none => none
  let isFind := pyLower intent = "find"
  let isReplace := pyLower intent = "replace"
  -- FIND: possibly adopt the row_filter-derived regex and columns
  let findDisp := display_regex_and_columns_from_row_filter norm_rf
  let adopt := isFind ∧ (pattern = "" ∨ match_all_form pattern) ∧ findDisp.1.isSome
  let row_filter_only_hits := adopt
  let use_pattern := if adopt then findDisp.1.getD pattern else pattern
  let regex_source := if adopt then "row_filter-derived" else "regex"
  let cols := if adopt ∧ columns = none ∧ findDisp.2 ≠ []
    then findDisp.2.filter (fun c => c ∈ df.headers)
    else cols0
  let display_regex : Option String :=
    if isFind then (if findDisp.1.isSome then findDisp.1 else some use_pattern)
    else none
  let display_regex_source : Option String :=
    if isFind then (if findDisp.1.isSome then some "row_filter-derived" else some regex_source)
    else none
  -- REPLACE: display-only derivation
  let sentinel := replacement.getD ""
  let is_dn := is_date_normalize_sentinel sentinel
  let replDisp := display_regex_and_columns_from_row_filter norm_rf
  let replAdoptDisplay := isReplace ∧ ¬is_dn ∧ norm_rf ≠ none ∧ norm_rf ≠ some ""
    ∧ (pattern = "" ∨ match_all_form pattern) ∧ replDisp.1.isSome
  let display_regex := if isReplace then
      (if replAdoptDisplay then replDisp.1
       else if use_pattern ≠ "" then some use_pattern else none)
    else display_regex
  let display_regex_source := if isReplace then
      (if replAdoptDisplay then some "row_filter-derived"
       else if use_pattern ≠ "" then some "regex" else none)
    else display_regex_source
  let display_columns : List String :=
    if replAdoptDisplay ∧ columns = none ∧ replDisp.2 ≠ []
    then replDisp.2.filter (fun c => c ∈ df.headers)
    else cols
  -- Safety: non-empty pattern before compiling
  let use_pattern := if use_pattern = "" then "^.*$" else use_pattern
  let fl := compile_flags flags
  let mask_idx := (maskPositions mask).take 2000
  if isFind then
    let cellCnt : String → Nat → Nat := fun c i => cellCountIn eng use_pattern fl (getCell df i c)
    let per_col := cols.map (fun c =>
      (c, ((maskPositions mask).map (fun i => cellCnt c i)).sum))
    let total := (per_col.map (fun p => p.2)).sum
    let changed0 := (List.range df.nrows).filter
      (fun i => maskGet mask i && cols.any (fun c => cellCnt c i > 0))
    let changed := if row_filter_only_hits then maskPositions mask else changed0
    let payload : Payload :=
      { mode := "find"
        regex := use_pattern
        regex_source := regex_source
        display_regex := display_regex
        display_regex_source := display_regex_source
        display_columns := none
        flags := flags
        columns_applied := cols
        row_filter := row_filter
        row_filter_normalized := norm_rf
        mask_row_indices := mask_idx
        total_matches := total
        per_column := per_col
        changed_row_indices := changed.take 2000
        head_hit_row_indices := changed.filter (fun i => i < head_n)
        result_rows_description :=
          if row_filter_only_hits then "Result rows = rows where row_filter is true."
          else "Result rows = rows where row_filter is true AND at least one of the selected columns matches the pattern."
        result_rows_count := changed.length
        result_rows_indices := changed.take 2000 }
    (df, payload)
  else if isReplace ∧ is_dn then
    dateBranch df pattern flags columns sentinel row_filter head_n
  else
    let rep := replacement.getD ""
    let folded := cols.foldl (replaceStep eng use_pattern fl rep mask) (df, 0, [], [])
    let out := folded.1
    let total := folded.2.1
    let per_col := folded.2.2.1
    let changed := (List.range df.nrows).filter (fun i => i ∈ folded.2.2.2)
    let payload : Payload :=
      { mode := "replace"
        regex := use_pattern
        regex_source := regex_source
        display_regex := display_regex
        display_regex_source := display_regex_source
        display_columns := some display_columns
        flags := flags
        columns_applied := cols
        row_filter := row_filter
        row_filter_normalized := norm_rf
        mask_row_indices := mask_idx
        total_matches := total
        per_column := per_col
        changed_row_indices := changed.take 2000
        head_hit_row_indices := changed.filter (fun i => i < head_n)
        result_rows_description :=
          "Result rows = rows where row_filter is true AND at least one of the selected columns matches the pattern."
        result_rows_count := changed.length
        result_rows_indices := changed.take 2000 }
    (out, payload)

/-! ## Plan data model and validator (plan_v2.py) -/

/-- The typed plan produced by the external planner. -/
structure RegexPlan where
  intent : String
  pattern : String
  flags : String
  columns : Option (List String)
  replacement : Option String
  row_filter : Option String
deriving DecidableEq

/-- The recognized flag characters shared by `normalize` and the validator. -/
def allowed_flags : String := "imsluxUu"

/-- The textual NA placeholders `normalize` rewrites. -/
def naLikeValues : List String := ["NA", "N/A", "NaN", "nan", "na"]

/-- Model of `RegexPlan.normalize` (plan_v2.py lines 33-48): keep only the
recognized flag characters (falling back to `i`), strip the replacement and
rewrite the NA placeholders to a safe literal, and default a blank pattern to
the match-all pattern. -/
def RegexPlan.normalize (p : RegexPlan) : RegexPlan :=
  let base := if p.flags = "" then "i" else p.flags
  let safe0 := String.mk (base.data.filter (fun c => allowed_flags.data.contains c))
  let safe := if safe0 = "" then "i" else safe0
  let rep0 := pyStrip (p.replacement.getD "")
  let rep1 : Option String := if rep0 = "" then none else some rep0
  let rep := rep1.map (fun r => if r ∈ naLikeValues then "N/A (missing)" else r)
  let pat0 := pyStrip p.pattern
  let pat := if pat0 = "" then "^.*$" else pat0
  { p with flags := safe, replacement := rep, pattern := pat }

/-- A validation violation of `_validate_plan` (the Python strings carry the
same information as these constructors). -/
inductive PlanError
  | badIntent
  | patternNotCompilable
  | unsupportedFlag (c : Char)
  | unknownColumns (cs : List String)
  | replacementRequired
  | rowFilterUnknownColumn (t : String)
deriving DecidableEq

/-- All backtick-quoted identifiers of a row filter, in order
(`re.findall(r"`([^`]+)`", rf)`). -/
def backtickNamesAux : Nat → List Char → List String
  | 0, _ => []
  | _ + 1, [] => []
  | fuel + 1, c :: rest =>
    if c = '`' then
      let inner := rest.takeWhile (fun ch => ch != '`')
      if inner.isEmpty then backtickNamesAux fuel rest
      else
        match rest.drop inner.length with
        | '`' :: r2 => String.mk inner :: backtickNamesAux fuel r2
        | _ => backtickNamesAux fuel rest
    else backtickNamesAux fuel rest

/-- All backticked names of a row filter. -/
def backtickNames (rf : String) : List String :=
  backtickNamesAux (rf.data.length + 1) rf.data

/-- Model of `_validate_plan` (plan_v2.py lines 159-198), which collects the
complete list of violations.  Whether a pattern compiles under `re.compile`
is external, so it is the oracle parameter `compiles`. -/
def validate_plan (compiles : String → Bool) (p : RegexPlan) (headers : List String) :
    List PlanError :=
  let e1 := if p.intent ≠ "find" ∧ p.intent ≠ "replace" then [PlanError.badIntent] else []
  let e2 := if compiles p.pattern then [] else [PlanError.patternNotCompilable]
  let e3 := p.flags.data.filterMap (fun c =>
    if allowed_flags.data.contains c then none else some (PlanError.unsupportedFlag c))
  let e4 := match p.columns with
    | some cs =>
      if cs ≠ [] then
        let unknown := cs.filter (fun c => ¬ headers.any (fun h => pyLower h = pyLower c))
        if unknown ≠ [] then [PlanError.unknownColumns unknown] else []
      else []
    | none => []
  let e5 := if p.intent = "replace" ∧ (p.replacement = none ∨ p.replacement = some "")
    then [PlanError.replacementRequired] else []
  let e6 := match p.row_filter with
    | some rf =>
      if rf ≠ "" then
        (backtickNames rf).filterMap (fun t =>
          if t ∈ headers then none else some (PlanError.rowFilterUnknownColumn t))
      else []
    | none => []
  e1 ++ e2 ++ e3 ++ e4 ++ e5 ++ e6

/-! ## Helper lemmas -/

theorem range_map_getD (l : List α) (d : α) :
    (List.range l.length).map (fun i => l.getD i d) = l := by
  apply List.ext_getElem?
  intro n
  rw [List.getElem?_map]
  by_cases h : n < l.length
  · rw [List.getElem?_range h]
    simp [List.getD_eq_getElem?_getD, List.getElem?_eq_getElem h]
  · rw [List.getElem?_eq_none (by simpa using h), List.getElem?_eq_none (by omega)]
    rfl

theorem map_range_getD (n : Nat) (f : Nat → α) (i : Nat) (d : α) :
    ((List.range n).map f).getD i d = if i < n then f i else d := by
  rw [List.getD_eq_getElem?_getD, List.getElem?_map]
  by_cases h : i < n
  · rw [List.getElem?_range h]; simp [h]
  · rw [List.getElem?_eq_none (by simpa using h)]; simp [h]

theorem maskGet_map_range (n : Nat) (f : Nat → Bool) (i : Nat) :
    maskGet ((List.range n).map f) i = if i < n then f i else false :=
  map_range_getD n f i false

theorem maskGet_replicate (n : Nat) (b : Bool) (i : Nat) :
    maskGet (List.replicate n b) i = if i < n then b else false := by
  unfold maskGet
  rw [List.getD_eq_getElem?_getD]
  by_cases h : i < n
  · rw [List.getElem?_replicate_of_lt h]; simp [h]
  · rw [List.getElem?_eq_none (by simpa using h)]; simp [h]

theorem maskGet_allTrue (df : DataFrame) (i : Nat) :
    maskGet (allTrueMask df) i = decide (i < df.nrows) := by
  rw [allTrueMask, maskGet_replicate]
  by_cases h : i < df.nrows <;> simp [h]

theorem maskGet_of_length_le (m : Mask) (i : Nat) (h : m.length ≤ i) :
    maskGet m i = false := by
  unfold maskGet
  rw [List.getD_eq_getElem?_getD, List.getElem?_eq_none h]
  rfl

theorem maskOr_length (a b : Mask) (ha : a.length = n) (hb : b.length = n) :
    (maskOr a b).length = n := by
  simp [maskOr, ha, hb]

theorem maskGet_maskOr (a b : Mask) (n : Nat) (ha : a.length = n) (hb : b.length = n)
    (i : Nat) : maskGet (maskOr a b) i = (maskGet a i || maskGet b i) := by
  unfold maskGet maskOr
  rw [List.getD_eq_getElem?_getD, List.getD_eq_getElem?_getD, List.getD_eq_getElem?_getD,
    List.getElem?_zipWith]
  by_cases h : i < n
  · rw [List.getElem?_eq_getElem (by omega), List.getElem?_eq_getElem (by omega)]
    rfl
  · rw [List.getElem?_eq_none (by omega), List.getElem?_eq_none (by omega)]
    rfl

theorem colIndex_isSome_of_mem {hs : List String} {c : String} (h : c ∈ hs) :
    (hs.indexOf? c).isSome := by
  induction hs with
  | nil => cases h
  | cons a rest ih =>
    rw [List.indexOf?_cons]
    by_cases hac : a = c
    · simp [hac]
    · have hmem : c ∈ rest := by
        cases h with
        | head => exact absurd rfl hac
        | tail _ hm => exact hm
      have hbeq : (a == c) = false := by simp [hac]
      rw [hbeq]
      simp only [Bool.false_eq_true, if_false]
      simpa using ih hmem

theorem colIndex_getElem? {hs : List String} {c : String} {j : Nat}
    (h : hs.indexOf? c = some j) : hs[j]? = some c := by
  induction hs generalizing j with
  | nil => simp [List.indexOf?_nil] at h
  | cons a rest ih =>
    rw [List.indexOf?_cons] at h
    by_cases hac : a = c
    · have hbeq : (a == c) = true := by simp [hac]
      rw [hbeq] at h
      simp only [if_true] at h
      cases h
      simpa using hac
    · have hbeq : (a == c) = false := by simp [hac]
      rw [hbeq] at h
      simp only [Bool.false_eq_true, if_false] at h
      cases hj : rest.indexOf? c with
      | none => rw [hj] at h; simp at h
      | some j0 =>
        rw [hj] at h
        simp only [Option.map_some', Option.some.injEq] at h
        subst h
        simpa using ih hj

theorem colIndex_lt {hs : List String} {c : String} {j : Nat}
    (h : hs.indexOf? c = some j) : j < hs.length := by
  have := colIndex_getElem? h
  by_contra hn
  rw [List.getElem?_eq_none (by omega)] at this
  cases this

theorem getCol_length {df : DataFrame} {c : String} (h : c ∈ df.headers) :
    (getCol df c).length = df.nrows := by
  unfold getCol colIndex
  cases hj : df.headers.indexOf? c with
  | none =>
    have := colIndex_isSome_of_mem h
    rw [hj] at this
    cases this
  | some j => simp [DataFrame.nrows]

theorem eqMaskCI_length {df : DataFrame} {col val : String} (h : col ∈ df.headers) :
    (eqMaskCI df col val).length = df.nrows := by
  unfold eqMaskCI
  rw [List.length_map]
  exact getCol_length h

theorem numMask_length {df : DataFrame} {col : String} {op : CmpOp} {v : Rat}
    (h : col ∈ df.headers) : (numMask df col op v).length = df.nrows := by
  unfold numMask
  rw [List.length_map]
  exact getCol_length h

theorem strOpMask_length {eng : RegexEngine} {df : DataFrame} {cl : StrOpClause}
    (h : cl.col ∈ df.headers) : (strOpMask eng df cl).length = df.nrows := by
  unfold strOpMask
  rw [List.length_map]
  exact getCol_length h

theorem foldl_mask_invariant {α : Type} (n : Nat) (l : List α)
    (body : Option Mask → α → Option Mask)
    (hbody : ∀ acc x, (∀ m, acc = some m → m.length = n) →
      ∀ m', body acc x = some m' → m'.length = n) :
    ∀ acc, (∀ m, acc = some m → m.length = n) →
      ∀ m', l.foldl body acc = some m' → m'.length = n := by
  induction l with
  | nil => intro acc hacc m' h; exact hacc m' h
  | cons a rest ih =>
    intro acc hacc m' h
    exact ih (body acc a) (fun m hm => hbody acc a hacc m hm) m' h

theorem andStepMask_length {acc : Option Mask} {cur : Mask} {n : Nat}
    (hacc : ∀ m0, acc = some m0 → m0.length = n) (hcur : cur.length = n) :
    ∀ m', andStepMask acc cur = some m' → m'.length = n := by
  intro m' hm
  cases acc with
  | none => cases hm; exact hcur
  | some a =>
    cases hm
    have := hacc a rfl
    simp [maskAnd, this, hcur]

theorem mask_from_clauses_length {eng : RegexEngine} {df : DataFrame} {q : String}
    {m : Mask} (h : mask_from_clauses eng df q = some m) : m.length = df.nrows := by
  unfold mask_from_clauses at h
  refine foldl_mask_invariant df.nrows (findStrOps q) _
    (by
      intro acc x hacc m' hm
      by_cases hmem : x.col ∈ df.headers
      · rw [if_pos hmem] at hm
        exact andStepMask_length hacc (strOpMask_length hmem) m' hm
      · rw [if_neg hmem] at hm; exact hacc m' hm)
    _ ?_ m h
  refine foldl_mask_invariant df.nrows (findNumClauses q) _
    (by
      intro acc x hacc m' hm
      by_cases hmem : x.1 ∈ df.headers
      · rw [if_pos hmem] at hm
        exact andStepMask_length hacc (numMask_length hmem) m' hm
      · rw [if_neg hmem] at hm; exact hacc m' hm)
    _ ?_
  refine foldl_mask_invariant df.nrows (findEqPairs q) _
    (by
      intro acc x hacc m' hm
      by_cases hmem : x.1 ∈ df.headers
      · rw [if_pos hmem] at hm
        exact andStepMask_length hacc (eqMaskCI_length hmem) m' hm
      · rw [if_neg hmem] at hm; exact hacc m' hm)
    _ ?_
  intro m0 hm0
  cases hm0

theorem allTrueMask_length (df : DataFrame) : (allTrueMask df).length = df.nrows := by
  simp [allTrueMask]

theorem eval_basic_query_length (qe : QueryEngine) (eng : RegexEngine) (df : DataFrame)
    (q : String) : (eval_basic_query qe eng df q).1.length = df.nrows := by
  unfold eval_basic_query
  cases h1 : qe.run df q with
  | some mask =>
    have hlen := qe.len_ok df q mask h1
    dsimp only
    by_cases hc : maskSum mask = 0 ∧ has_string_equality q = true
    · rw [if_pos hc]
      cases h2 : mask_from_clauses eng df q with
      | some mci => exact mask_from_clauses_length h2
      | none => exact hlen
    · rw [if_neg hc]; exact hlen
  | none =>
    dsimp only
    cases h2 : qe.run df (rewrite_and_or q) with
    | some mask =>
      have hlen := qe.len_ok df (rewrite_and_or q) mask h2
      dsimp only
      by_cases hc : maskSum mask = 0 ∧ has_string_equality q = true
      · rw [if_pos hc]
        cases h3 : mask_from_clauses eng df q with
        | some mci => exact mask_from_clauses_length h3
        | none => exact hlen
      · rw [if_neg hc]; exact hlen
    | none =>
      dsimp only
      cases h3 : mask_from_clauses eng df q with
      | some m => exact mask_from_clauses_length h3
      | none => exact allTrueMask_length df

theorem picksMask_length (df : DataFrame) (picks : List Nat) :
    (picksMask df picks).length = df.nrows := by
  unfold picksMask
  by_cases h : picks.isEmpty
  · simp [h, allFalseMask]
  · simp [h]

theorem maskGet_picksMask (df : DataFrame) (picks : List Nat) (i : Nat) :
    maskGet (picksMask df picks) i = (decide (i < df.nrows) && picks.contains i) := by
  unfold picksMask
  by_cases h : picks.isEmpty
  · rw [if_pos h]
    rw [allFalseMask, maskGet_replicate]
    have : picks = [] := by simpa [List.isEmpty_iff] using h
    subst this
    simp
  · rw [if_neg h, maskGet_map_range]
    by_cases hi : i < df.nrows <;> simp [hi]

theorem mask_group_with_rownum_length (qe : QueryEngine) (eng : RegexEngine)
    (df : DataFrame) (g : String) :
    (mask_group_with_rownum qe eng df g).1.length = df.nrows := by
  unfold mask_group_with_rownum
  by_cases h1 : (remove_rownum_clauses g).2 = []
  · simp only [h1, if_true]
    exact eval_basic_query_length qe eng df _
  · simp only [h1, if_false]
    by_cases h2 : pyLower (if pyStrip (remove_rownum_clauses g).1 = "" then "True"
        else pyStrip (remove_rownum_clauses g).1) = "true"
    · rw [if_pos h2]
      exact picksMask_length df _
    · rw [if_neg h2]
      exact picksMask_length df _

theorem foldl_maskOr_length (qe : QueryEngine) (eng : RegexEngine) (df : DataFrame)
    (l : List String) :
    ∀ (acc : Option Mask), (∀ m, acc = some m → m.length = df.nrows) →
      ∀ m', l.foldl
        (fun (acc : Option Mask) p =>
          match acc with
          | none => some (mask_group_with_rownum qe eng df p).1
          | some a => some (maskOr a (mask_group_with_rownum qe eng df p).1))
        acc = some m' → m'.length = df.nrows := by
  induction l with
  | nil => intro acc hacc m' h; exact hacc m' h
  | cons p rest ih =>
    intro acc hacc m' h
    refine ih _ ?_ m' h
    intro m hm
    cases acc with
    | none =>
      cases hm
      exact mask_group_with_rownum_length qe eng df p
    | some a =>
      cases hm
      exact maskOr_length _ _ (hacc a rfl) (mask_group_with_rownum_length qe eng df p)

theorem mask_from_query_with_rownum_length (qe : QueryEngine) (eng : RegexEngine)
    (df : DataFrame) (norm : String) :
    (mask_from_query_with_rownum qe eng df norm).length = df.nrows := by
  unfold mask_from_query_with_rownum
  cases hf : (if (split_top_level norm "or").isEmpty then [norm]
      else split_top_level norm "or").foldl
        (fun (acc : Option Mask) p =>
          match acc with
          | none => some (mask_group_with_rownum qe eng df p).1
          | some a => some (maskOr a (mask_group_with_rownum qe eng df p).1))
        none with
  | none => simp only [hf]; exact allTrueMask_length df
  | some a =>
    simp only [hf]
    exact foldl_maskOr_length qe eng df _ none (by intro m hm; cases hm) a hf

theorem softRecallMask_length {df : DataFrame} {col val : String} (h : col ∈ df.headers) :
    (softRecallMask df col val).length = df.nrows := by
  unfold softRecallMask
  rw [List.length_map]
  exact getCol_length h

theorem ensure_mask_from_query_length (qe : QueryEngine) (eng : RegexEngine)
    (df : DataFrame) (query : Option String) :
    (ensure_mask_from_query qe eng df query).length = df.nrows := by
  unfold ensure_mask_from_query
  cases query with
  | none => exact allTrueMask_length df
  | some q =>
    dsimp only
    by_cases h1 : pyStrip q = ""
    · rw [if_pos h1]; exact allTrueMask_length df
    · rw [if_neg h1]
      by_cases h2 : maskSum (mask_from_query_with_rownum qe eng df
          (normalize_row_filter q df.headers)) = 0
      · rw [if_pos h2]
        cases h3 : softRecallMatch q with
        | none => exact mask_from_query_with_rownum_length qe eng df _
        | some cv =>
          by_cases h4 : cv.1 ∈ df.headers
          · simp only [if_pos h4]
            exact softRecallMask_length h4
          · simp only [if_neg h4]
            exact mask_from_query_with_rownum_length qe eng df _
      · rw [if_neg h2]
        exact mask_from_query_with_rownum_length qe eng df _

/-! ## Concrete fixtures used by witnesses and counterexamples -/

/-- A dataset with a Gender and a City column. -/
def dfGender : DataFrame :=
  ⟨["Gender", "City"],
   [[some "Female", some "Paris"], [some "Male", some "Lyon"], [some "Female", some "Nice"]]⟩

/-- A dataset with a Country and a Val column. -/
def dfCountry : DataFrame :=
  ⟨["Country", "Val"],
   [[some "FR", some "a"], [some "US", some "b"], [some "US", some "c"], [some "DE", some "d"]]⟩

/-- A one-row dataset whose Name cell is capitalized. -/
def dfAlice : DataFrame := ⟨["Name"], [[some "Alice"]]⟩

/-- A four-row single-column dataset. -/
def dfFour : DataFrame := ⟨["Val"], [[some "w"], [some "x"], [some "y"], [some "z"]]⟩

/-- A two-row single-column dataset. -/
def dfTwo : DataFrame := ⟨["Val"], [[some "w"], [some "x"]]⟩

/-- A dataset whose A column holds a plain cell, a newline-bearing cell and a
missing cell. -/
def dfCells : DataFrame :=
  ⟨["A", "B"],
   [[some "hello", some "k1"], [some "a\nb", some "k2"], [none, some "k3"]]⟩

/-- An inert stand-in for the date-normalize branch parameter of
`execute_plan`; no theorem below reaches that branch. -/
def noDateBranch : DataFrame → String → String → Option (List String) → String →
    Option String → Nat → DataFrame × Payload :=
  fun df _ _ _ _ _ _ =>
    (df,
     { mode := "replace", regex := "", regex_source := "", display_regex := none,
       display_regex_source := none, display_columns := none, flags := "",
       columns_applied := [], row_filter := none, row_filter_normalized := none,
       mask_row_indices := [], total_matches := 0, per_column := [],
       changed_row_indices := [], head_hit_row_indices := [],
       result_rows_description := "", result_rows_count := 0, result_rows_indices := [] })

/-! ## Claim C10 -/

theorem foldl_flagStep_skip : ∀ (l : List Char) (acc : Nat),
    (∀ c ∈ l, c ∉ (['i', 'm', 's', 'x'] : List Char)) → l.foldl flagStep acc = acc := by
  intro l
  induction l with
  | nil => intro acc _; rfl
  | cons c rest ih =>
    intro acc h
    have hc := h c (by simp)
    simp only [List.mem_cons, List.mem_singleton] at hc
    push_neg at hc
    have hstep : flagStep acc c = acc := by
      unfold flagStep
      rw [if_neg (by tauto), if_neg (by tauto), if_neg (by tauto), if_neg (by tauto)]
    rw [List.foldl_cons, hstep]
    exact ih acc (fun d hd => h d (by simp [hd]))

theorem foldl_flagStep_no_msx : ∀ (l : List Char) (acc : Nat),
    (∀ c ∈ l, c ∉ (['m', 's', 'x'] : List Char)) → (acc = 0 ∨ acc = 2) →
    (l.foldl flagStep acc = 0 ∨ l.foldl flagStep acc = 2) := by
  intro l
  induction l with
  | nil => intro acc _ hacc; exact hacc
  | cons c rest ih =>
    intro acc h hacc
    have hc := h c (by simp)
    simp only [List.mem_cons, List.mem_singleton] at hc
    push_neg at hc
    have hstep : flagStep acc c = 0 ∨ flagStep acc c = 2 := by
      unfold flagStep
      by_cases hi : c = 'i'
      · rw [if_pos hi]
        rcases hacc with h0 | h2
        · subst h0; right; decide
        · subst h2; right; decide
      · rw [if_neg hi, if_neg (by tauto), if_neg (by tauto), if_neg (by tauto)]
        exact hacc
    rw [List.foldl_cons]
    exact ih (flagStep acc c) (fun d hd => h d (by simp [hd])) hstep

/-- C10: a flags string whose characters all lie outside `i`, `m`, `s`, `x`
(including the empty string and the unicode markers `u`/`U`) compiles to
exactly `re.IGNORECASE`; and without any of `m`, `s`, `x` the IGNORECASE bit
is always set, so case-sensitive matching is impossible. -/
theorem C10_compile_flags_forces_ignorecase (flags : String) :
    ((∀ c ∈ flags.data, c ∉ (['i', 'm', 's', 'x'] : List Char)) →
      compile_flags flags = reIGNORECASE)
    ∧ ((∀ c ∈ flags.data, c ∉ (['m', 's', 'x'] : List Char)) →
      compile_flags flags &&& reIGNORECASE = reIGNORECASE) := by
  constructor
  · intro h
    unfold compile_flags
    by_cases he : flags = ""
    · rw [if_pos he]
    · rw [if_neg he]
      have hz : flags.data.foldl flagStep 0 = 0 := foldl_flagStep_skip _ 0 h
      simp [hz]
  · intro h
    unfold compile_flags
    by_cases he : flags = ""
    · rw [if_pos he]; decide
    · rw [if_neg he]
      rcases foldl_flagStep_no_msx flags.data 0 h (Or.inl rfl) with h0 | h2
      · simp only [h0, if_pos rfl]; decide
      · rw [h2]
        simp only [if_neg (by decide : (2 : Nat) ≠ 0)]
        decide

/-- C10 witness: the unicode-only flags `uU` compile to exactly IGNORECASE,
and the flags `iu` keep the IGNORECASE bit. -/
theorem C10_compile_flags_forces_ignorecase_witness :
    compile_flags "uU" = reIGNORECASE ∧ compile_flags "iu" &&& reIGNORECASE = reIGNORECASE :=
  ⟨(C10_compile_flags_forces_ignorecase "uU").1 (by decide),
   (C10_compile_flags_forces_ignorecase "iu").2 (by decide)⟩

/-! ## Claim C8 -/

/-- C8: evaluating `guess_dayfirst` on the claim's samples.  A sample only
counts as an ambiguous hit when both of its first two numeric segments are at
most 12, so `31/12/2020` and `15/01/2021` contribute no hits at all and the
function returns `none` (undetermined — callers then default to month-first),
not the day-first verdict its docstring and the claim promise. -/
theorem C8_guess_dayfirst_eval :
    guess_dayfirst ["31/12/2020", "15/01/2021"] = none ∧
      guess_dayfirst ["31/12/2020", "15/01/2021"] ≠ some true := by
  constructor
  · decide
  · decide

/-! ## Claim C7 -/

/-- C7: the spreadsheet-serial branch of `normalize_cell_as_whole` is
unreachable — it names `timedelta`, which the module never imports, so the
`NameError` is swallowed and the value is stringified and parsed instead.
For any external parsing stack that fails on the bare digit string `"45292"`
(dateparser requires day/month/year parts, dateutil raises on 5-digit
numbers, and none of the fixed strptime formats matches), the code returns
`("45292", 0)`; the intended serial interpretation of the claim, modelled
from the spec, yields `("2024-01-01", 1)` from the 1899-12-30 epoch. -/
theorem C7_serial_date_unreachable :
    (∀ parse_one : String → Option (Nat × Nat × Nat), parse_one "45292" = none →
      normalize_cell_as_whole parse_one (.pint 45292) "YYYY-MM-DD" = ("45292", 0))
    ∧ normalize_cell_as_whole_spec (fun _ => none) (.pint 45292) "YYYY-MM-DD"
        = ("2024-01-01", 1) := by
  constructor
  · intro parse_one h
    have hdef : normalize_cell_as_whole parse_one (.pint 45292) "YYYY-MM-DD"
        = (match parse_one "45292" with
           | some ymd => (strftimeYmd (to_strftime "YYYY-MM-DD") ymd, 1)
           | none => ("45292", 0)) := rfl
    rw [hdef, h]
  · decide

/-- C7 witness: instantiating the parsing stack with one that fails on
`"45292"`. -/
theorem C7_serial_date_unreachable_witness :
    normalize_cell_as_whole (fun _ => none) (.pint 45292) "YYYY-MM-DD" = ("45292", 0) :=
  C7_serial_date_unreachable.1 (fun _ => none) rfl

/-! ## Claim C9 -/

theorem validate_unsupportedFlag_mem {cp : String → Bool} {p : RegexPlan}
    {hs : List String} {c : Char}
    (h : PlanError.unsupportedFlag c ∈ validate_plan cp p hs) :
    c ∈ p.flags.data ∧ allowed_flags.data.contains c = false := by
  unfold validate_plan at h
  simp only [List.mem_append] at h
  rcases h with ((((h | h) | h) | h) | h) | h
  · split at h <;> simp_all
  · split at h <;> simp_all
  · rw [List.mem_filterMap] at h
    obtain ⟨ch, hch, heq⟩ := h
    by_cases hall : allowed_flags.data.contains ch
    · rw [if_pos hall] at heq; cases heq
    · rw [if_neg hall] at heq
      cases heq
      exact ⟨hch, by simpa using hall⟩
  · rcases hcols : p.columns with _ | cs
    · rw [hcols] at h; simp at h
    · rw [hcols] at h
      dsimp only at h
      split at h
      · split at h
        · simp at h
        · simp at h
      · simp at h
  · split at h <;> simp_all
  · rcases hrf : p.row_filter with _ | rf
    · rw [hrf] at h; simp at h
    · rw [hrf] at h
      dsimp only at h
      split at h
      · rw [List.mem_filterMap] at h
        obtain ⟨t, _, heq⟩ := h
        split at heq <;> simp_all
      · simp at h

theorem validate_patternNotCompilable_mem {cp : String → Bool} {p : RegexPlan}
    {hs : List String}
    (h : PlanError.patternNotCompilable ∈ validate_plan cp p hs) :
    cp p.pattern = false := by
  unfold validate_plan at h
  simp only [List.mem_append] at h
  rcases h with ((((h | h) | h) | h) | h) | h
  · split at h <;> simp_all
  · by_cases hc : cp p.pattern
    · rw [if_pos hc] at h; simp at h
    · simpa using hc
  · rw [List.mem_filterMap] at h
    obtain ⟨ch, _, heq⟩ := h
    split at heq <;> simp_all
  · rcases hcols : p.columns with _ | cs
    · rw [hcols] at h; simp at h
    · rw [hcols] at h
      dsimp only at h
      split at h
      · split at h
        · simp at h
        · simp at h
      · simp at h
  · split at h <;> simp_all
  · rcases hrf : p.row_filter with _ | rf
    · rw [hrf] at h; simp at h
    · rw [hrf] at h
      dsimp only at h
      split at h
      · rw [List.mem_filterMap] at h
        obtain ⟨t, _, heq⟩ := h
        split at heq <;> simp_all
      · simp at h

theorem normalize_flags_allowed (p : RegexPlan) :
    ∀ c ∈ p.normalize.flags.data, allowed_flags.data.contains c = true := by
  intro c hc
  have hfl : p.normalize.flags =
      (if String.mk ((if p.flags = "" then "i" else p.flags).data.filter
          (fun c => allowed_flags.data.contains c)) = "" then "i"
       else String.mk ((if p.flags = "" then "i" else p.flags).data.filter
          (fun c => allowed_flags.data.contains c))) := rfl
  rw [hfl] at hc
  by_cases hz : String.mk ((if p.flags = "" then "i" else p.flags).data.filter
      (fun c => allowed_flags.data.contains c)) = ""
  · rw [if_pos hz] at hc
    have : c = 'i' := by simpa using hc
    subst this
    decide
  · rw [if_neg hz] at hc
    exact List.of_mem_filter (by simpa using hc)

/-- C9: after `normalize`, validation reports nothing about the sanitized
fields: every remaining flag character is recognized (no unsupported-flag
error), the pattern is non-empty — a blank one became the match-all pattern
`^.*$`, which compiles, so no pattern error can stem from emptiness — and no
NA-like replacement survives. -/
theorem C9_normalize_then_validate (cp : String → Bool) (p : RegexPlan)
    (hs : List String) (hma : cp "^.*$" = true) :
    (∀ c, PlanError.unsupportedFlag c ∉ validate_plan cp p.normalize hs)
    ∧ p.normalize.pattern ≠ ""
    ∧ (pyStrip p.pattern = "" →
        p.normalize.pattern = "^.*$"
        ∧ PlanError.patternNotCompilable ∉ validate_plan cp p.normalize hs)
    ∧ (∀ s ∈ naLikeValues, p.normalize.replacement ≠ some s) := by
  have hpat : p.normalize.pattern =
      (if pyStrip p.pattern = "" then "^.*$" else pyStrip p.pattern) := rfl
  refine ⟨?_, ?_, ?_, ?_⟩
  · intro c hc
    obtain ⟨hmem, hnc⟩ := validate_unsupportedFlag_mem hc
    have := normalize_flags_allowed p c hmem
    rw [this] at hnc
    cases hnc
  · rw [hpat]
    split
    · decide
    · assumption
  · intro hblank
    have hp : p.normalize.pattern = "^.*$" := by rw [hpat, if_pos hblank]
    refine ⟨hp, ?_⟩
    intro hmem
    have := validate_patternNotCompilable_mem hmem
    rw [hp, hma] at this
    cases this
  · intro s hsna
    have hrep : p.normalize.replacement =
        ((if pyStrip (p.replacement.getD "") = "" then none
          else some (pyStrip (p.replacement.getD ""))).map
          (fun r => if r ∈ naLikeValues then "N/A (missing)" else r)) := rfl
    rw [hrep]
    split
    · simp
    · simp only [Option.map_some']
      split
      · intro hEq
        injection hEq with hEq
        subst hEq
        revert hsna
        decide
      · intro hEq
        injection hEq with hEq
        rw [← hEq] at hsna
        simp_all

/-- C9 witness: a plan with junk flags, a blank pattern and an NA replacement
is fully sanitized by `normalize`. -/
theorem C9_normalize_then_validate_witness :
    (RegexPlan.normalize ⟨"replace", "  ", "zq", none, some " NA ", none⟩).pattern = "^.*$"
    ∧ PlanError.patternNotCompilable ∉
        validate_plan (fun _ => true)
          (RegexPlan.normalize ⟨"replace", "  ", "zq", none, some " NA ", none⟩) ["A"]
    ∧ (RegexPlan.normalize ⟨"replace", "  ", "zq", none, some " NA ", none⟩).replacement
        ≠ some "NA" := by
  have h := C9_normalize_then_validate (fun _ => true)
    ⟨"replace", "  ", "zq", none, some " NA ", none⟩ ["A"] rfl
  exact ⟨(h.2.2.1 (by decide)).1, (h.2.2.1 (by decide)).2, h.2.2.2 "NA" (by decide)⟩

/-! ## Claim C6 -/

/-- C6: when strict evaluation (tier 1, or tier 2 after the operator
rewrite) succeeds with zero selected rows and the expression contains a
string-equality clause, the evaluator re-runs the manual clause matcher and
returns its (case-insensitively matched) mask whenever it produced one — in
particular its non-empty results are preferred over the empty strict mask. -/
theorem C6_zero_hit_ci_equality_fallback (qe : QueryEngine) (eng : RegexEngine)
    (df : DataFrame) (q : String) (m0 mci : Mask)
    (hci : mask_from_clauses eng df q = some mci)
    (hne : maskSum mci ≠ 0)
    (heq : has_string_equality q = true) :
    (qe.run df q = some m0 → maskSum m0 = 0 →
      eval_basic_query qe eng df q = (mci, "query_zero_and_fallback", q))
    ∧ (qe.run df q = none → qe.run df (rewrite_and_or q) = some m0 → maskSum m0 = 0 →
      eval_basic_query qe eng df q
        = (mci, "query_rewrite_zero_and_fallback", rewrite_and_or q)) := by
  constructor
  · intro h1 h0
    unfold eval_basic_query
    rw [h1]
    dsimp only
    rw [if_pos ⟨h0, heq⟩, hci]
  · intro h1 h2 h0
    unfold eval_basic_query
    rw [h1]
    dsimp only
    rw [h2]
    dsimp only
    rw [if_pos ⟨h0, heq⟩, hci]

/-- C6 witness: `` `Name` == 'alice' `` on a dataset whose Name cell is
`"Alice"` — the strict engine finds nothing (case-sensitive equality), and
the case-insensitive fallback returns the row. -/
theorem C6_zero_hit_ci_equality_fallback_witness :
    eval_basic_query pandasQueryFragment matchAllEngine dfAlice "`Name` == 'alice'"
      = ([true], "query_zero_and_fallback", "`Name` == 'alice'")
    ∧ maskGet [true] 0 = true := by
  refine ⟨?_, rfl⟩
  exact (C6_zero_hit_ci_equality_fallback pandasQueryFragment matchAllEngine dfAlice
    "`Name` == 'alice'" [false] [true] (by decide) (by decide) (by decide)).1
    (by decide) (by decide)

/-! ## Claim C5 -/

/-- C5: the filter interpreter is total — the mask it builds is always a
boolean vector aligned with the dataset (never an exception), and a group on
which all three tiers fail (strict evaluation raises, the rewrite retry
raises, the clause matcher recognizes nothing) falls back to the all-true
mask with the fallback tag rather than raising. -/
theorem C5_filter_interpreter_total (qe : QueryEngine) (eng : RegexEngine) :
    (∀ (df : DataFrame) (query : Option String),
      (ensure_mask_from_query qe eng df query).length = df.nrows)
    ∧ (∀ (df : DataFrame) (q : String),
      qe.run df q = none → qe.run df (rewrite_and_or q) = none →
      mask_from_clauses eng df q = none →
      eval_basic_query qe eng df q = (allTrueMask df, "all_false", q)) := by
  constructor
  · intro df query
    exact ensure_mask_from_query_length qe eng df query
  · intro df q h1 h2 h3
    unfold eval_basic_query
    rw [h1]
    dsimp only
    rw [h2]
    dsimp only
    rw [h3]

/-- C5 witness: the unrecognizable filter `???` still yields a full-length
mask, and its group evaluation is the all-true fallback. -/
theorem C5_filter_interpreter_total_witness :
    (ensure_mask_from_query pandasQueryFragment matchAllEngine dfCountry
      (some "???")).length = dfCountry.nrows
    ∧ eval_basic_query pandasQueryFragment matchAllEngine dfCountry "???"
        = (allTrueMask dfCountry, "all_false", "???") :=
  ⟨(C5_filter_interpreter_total pandasQueryFragment matchAllEngine).1 dfCountry (some "???"),
   (C5_filter_interpreter_total pandasQueryFragment matchAllEngine).2 dfCountry "???"
     (by decide) (by decide) (by decide)⟩

/-! ## Claim C3 -/

theorem rownumPick_eq_some {nrows n i : Nat} :
    rownumPick nrows n = some i ↔ 1 ≤ n ∧ n - 1 < nrows ∧ i = n - 1 := by
  unfold rownumPick
  split
  · rename_i hcond
    constructor
    · intro h
      cases h
      exact ⟨hcond.1, hcond.2, rfl⟩
    · intro ⟨_, _, hi⟩
      rw [hi]
  · rename_i hcond
    constructor
    · intro h; cases h
    · intro ⟨h1, h2, _⟩
      exact absurd ⟨h1, h2⟩ hcond

theorem contains_filterMap {α β : Type} [DecidableEq β] (l : List α) (f : α → Option β)
    (b : β) : (l.filterMap f).contains b = true ↔ ∃ a ∈ l, f a = some b := by
  rw [List.contains_iff_exists_mem_beq]
  constructor
  · intro ⟨x, hx, hbeq⟩
    have : b = x := by simpa using hbeq
    subst this
    exact List.mem_filterMap.mp hx
  · intro h
    exact ⟨b, List.mem_filterMap.mpr h, by simp⟩

/-- C3: a group holding row-number clauses selects positionally.  When the
residue of stripping them is the constant-true placeholder, the mask holds at
`i` exactly when some requested `n` is in `1..nrows` with `i = n - 1`
(absolute position, out-of-range numbers skipped); when real predicates
remain, the mask holds at `i` exactly when `i` is the `n`-th (1-based)
position of the base mask obtained by evaluating the residue. -/
theorem C3_rownum_group_selection (qe : QueryEngine) (eng : RegexEngine)
    (df : DataFrame) (g e : String) (ns : List Nat)
    (hrm : remove_rownum_clauses g = (e, ns)) (hns : ns ≠ []) :
    (pyLower (if pyStrip e = "" then "True" else pyStrip e) = "true" →
      ∀ i, i < df.nrows →
        (maskGet (mask_group_with_rownum qe eng df g).1 i = true ↔
          ∃ n ∈ ns, 1 ≤ n ∧ n ≤ df.nrows ∧ i = n - 1))
    ∧ (pyLower (if pyStrip e = "" then "True" else pyStrip e) ≠ "true" →
      ∀ i,
        (maskGet (mask_group_with_rownum qe eng df g).1 i = true ↔
          ∃ n ∈ ns, 1 ≤ n ∧
            n - 1 < (maskPositions (eval_basic_query qe eng df
              (if pyStrip e = "" then "True" else pyStrip e)).1).length ∧
            (maskPositions (eval_basic_query qe eng df
              (if pyStrip e = "" then "True" else pyStrip e)).1).getD (n - 1) 0 = i)) := by
  have hmask : mask_group_with_rownum qe eng df g =
      (if ns = [] then
        ((eval_basic_query qe eng df (if pyStrip e = "" then "True" else pyStrip e)).1,
         (eval_basic_query qe eng df (if pyStrip e = "" then "True" else pyStrip e)).2.1)
      else if pyLower (if pyStrip e = "" then "True" else pyStrip e) = "true" then
        (picksMask df (ns.filterMap (rownumPick df.nrows)), "rownum_only")
      else
        (picksMask df (ns.filterMap (fun n =>
          if 1 ≤ n ∧ n - 1 < (maskPositions (eval_basic_query qe eng df
              (if pyStrip e = "" then "True" else pyStrip e)).1).length
          then some ((maskPositions (eval_basic_query qe eng df
              (if pyStrip e = "" then "True" else pyStrip e)).1).getD (n - 1) 0)
          else none)),
         (eval_basic_query qe eng df
           (if pyStrip e = "" then "True" else pyStrip e)).2.1 ++ "+rownum")) := by
    unfold mask_group_with_rownum
    rw [hrm]
  constructor
  · intro htrue i hi
    rw [hmask, if_neg hns, if_pos htrue]
    dsimp only
    rw [maskGet_picksMask]
    simp only [decide_eq_true_eq, Bool.and_eq_true, decide_eq_true_iff]
    constructor
    · intro ⟨_, hcont⟩
      obtain ⟨n, hn, hpick⟩ := (contains_filterMap ns (rownumPick df.nrows) i).mp hcont
      obtain ⟨h1, h2, h3⟩ := rownumPick_eq_some.mp hpick
      exact ⟨n, hn, h1, by omega, h3⟩
    · intro ⟨n, hn, h1, h2, h3⟩
      refine ⟨hi, (contains_filterMap ns (rownumPick df.nrows) i).mpr ?_⟩
      exact ⟨n, hn, rownumPick_eq_some.mpr ⟨h1, by omega, h3⟩⟩
  · intro hfalse i
    rw [hmask, if_neg hns, if_neg hfalse]
    dsimp only
    rw [maskGet_picksMask]
    simp only [Bool.and_eq_true, decide_eq_true_iff]
    set idxs := maskPositions (eval_basic_query qe eng df
      (if pyStrip e = "" then "True" else pyStrip e)).1 with hidxs
    have hidxlt : ∀ x ∈ idxs, x < df.nrows := by
      intro x hx
      rw [hidxs] at hx
      unfold maskPositions at hx
      rw [List.mem_filter] at hx
      have := List.mem_range.mp hx.1
      have hlen := eval_basic_query_length qe eng df
        (if pyStrip e = "" then "True" else pyStrip e)
      omega
    constructor
    · intro ⟨_, hcont⟩
      obtain ⟨n, hn, hpick⟩ := (contains_filterMap ns _ i).mp hcont
      by_cases hc : 1 ≤ n ∧ n - 1 < idxs.length
      · rw [if_pos hc] at hpick
        cases hpick
        exact ⟨n, hn, hc.1, hc.2, rfl⟩
      · rw [if_neg hc] at hpick
        cases hpick
    · intro ⟨n, hn, h1, h2, h3⟩
      have hmem : idxs.getD (n - 1) 0 ∈ idxs := by
        rw [List.getD_eq_getElem?_getD, List.getElem?_eq_getElem h2]
        exact List.getElem_mem h2
      refine ⟨?_, (contains_filterMap ns _ i).mpr ⟨n, hn, ?_⟩⟩
      · rw [← h3]
        exact hidxlt _ hmem
      · rw [if_pos ⟨h1, h2⟩, h3]

/-- C3 witness: `__rownum__ == 3` alone selects exactly the third row of a
four-row dataset, and `__rownum__ == 5` selects nothing on a two-row
dataset. -/
theorem C3_rownum_group_selection_witness :
    maskGet (mask_group_with_rownum pandasQueryFragment matchAllEngine dfFour
      "__rownum__ == 3").1 2 = true
    ∧ maskGet (mask_group_with_rownum pandasQueryFragment matchAllEngine dfTwo
      "__rownum__ == 5").1 0 = false
    ∧ maskGet (mask_group_with_rownum pandasQueryFragment matchAllEngine dfFour
      "__rownum__ == 3").1 0 = false := by
  have h4 := (C3_rownum_group_selection pandasQueryFragment matchAllEngine dfFour
    "__rownum__ == 3" " True " [3] (by decide) (by decide)).1 (by decide)
  have h2 := (C3_rownum_group_selection pandasQueryFragment matchAllEngine dfTwo
    "__rownum__ == 5" " True " [5] (by decide) (by decide)).1 (by decide)
  refine ⟨(h4 2 (by decide)).mpr ⟨3, by decide, by decide, by decide, by decide⟩, ?_, ?_⟩
  · have := h2 0 (by decide)
    by_contra hc
    simp only [Bool.not_eq_false] at hc
    obtain ⟨n, hn, _, hle, _⟩ := this.mp hc
    have : n = 5 := by simpa using hn
    subst this
    revert hle
    decide
  · have := h4 0 (by decide)
    by_contra hc
    simp only [Bool.not_eq_false] at hc
    obtain ⟨n, hn, _, _, hidx⟩ := this.mp hc
    have : n = 3 := by simpa using hn
    subst this
    revert hidx
    decide

/-! ## Claim C4 -/

theorem foldl_maskOr_any (qe : QueryEngine) (eng : RegexEngine) (df : DataFrame) :
    ∀ (l : List String) (a : Mask), a.length = df.nrows →
      ∃ m, l.foldl
          (fun (acc : Option Mask) p =>
            match acc with
            | none => some (mask_group_with_rownum qe eng df p).1
            | some x => some (maskOr x (mask_group_with_rownum qe eng df p).1))
          (some a) = some m
        ∧ m.length = df.nrows
        ∧ ∀ i, maskGet m i =
            (maskGet a i ||
              l.any (fun p => maskGet (mask_group_with_rownum qe eng df p).1 i)) := by
  intro l
  induction l with
  | nil =>
    intro a ha
    exact ⟨a, rfl, ha, by intro i; simp⟩
  | cons p rest ih =>
    intro a ha
    have hlen : (maskOr a (mask_group_with_rownum qe eng df p).1).length = df.nrows :=
      maskOr_length _ _ ha (mask_group_with_rownum_length qe eng df p)
    obtain ⟨m, hm, hmlen, hget⟩ := ih (maskOr a (mask_group_with_rownum qe eng df p).1) hlen
    refine ⟨m, by simpa using hm, hmlen, ?_⟩
    intro i
    rw [hget i, maskGet_maskOr a _ df.nrows ha (mask_group_with_rownum_length qe eng df p)]
    simp [Bool.or_assoc]

/-- C4: the final selection mask of the OR-aware evaluator is the pointwise
union of the per-group masks over the top-level OR split (the whole
expression standing in when the split is empty); and the splitter respects
quotes and parentheses — an `or` inside a quoted literal or inside
parentheses is not a split point. -/
theorem C4_or_groups_union (qe : QueryEngine) (eng : RegexEngine) (df : DataFrame)
    (q : String) :
    (∀ i, maskGet (mask_from_query_with_rownum qe eng df q) i =
      ((if (split_top_level q "or").isEmpty then [q] else split_top_level q "or").any
        (fun p => maskGet (mask_group_with_rownum qe eng df p).1 i)))
    ∧ split_top_level "`C` == 'x or y' or (a or b)" "or"
        = ["`C` == 'x or y'", "(a or b)"] := by
  constructor
  · intro i
    unfold mask_from_query_with_rownum
    dsimp only
    cases hp : (if (split_top_level q "or").isEmpty then [q] else split_top_level q "or") with
    | nil =>
      exfalso
      by_cases he : (split_top_level q "or").isEmpty
      · rw [if_pos he] at hp; cases hp
      · rw [if_neg he] at hp
        rw [hp] at he
        exact he rfl
    | cons p rest =>
      simp only [List.foldl_cons]
      obtain ⟨m, hm, _, hget⟩ := foldl_maskOr_any qe eng df rest
        (mask_group_with_rownum qe eng df p).1 (mask_group_with_rownum_length qe eng df p)
      rw [hm]
      rw [hget i]
      simp
  · decide

/-! ## Claim C2 -/

theorem displayRegex_ne_empty {o : Option String} {d : String}
    (h : (display_regex_and_columns_from_row_filter o).1 = some d) : d ≠ "" := by
  unfold display_regex_and_columns_from_row_filter at h
  cases o with
  | none => simp at h
  | some q =>
    dsimp only at h
    by_cases hq : q = ""
    · rw [if_pos hq] at h; simp at h
    · rw [if_neg hq] at h
      split at h
      · dsimp only at h
        injection h with h
        subst h
        intro hcon
        have hlen := congrArg String.length hcon
        rw [String.length_append, String.length_append] at hlen
        rw [show ("(?:" : String).length = 3 from by decide,
          show (")" : String).length = 1 from by decide,
          show ("" : String).length = 0 from by decide] at hlen
        omega
      · dsimp only at h
        cases h

/-- C2 (amended): a Find whose supplied pattern is empty or trivially
match-all, over a row filter from whose normalized form a display pattern is
derivable, adopts the derived regex as the semantic pattern; the result rows
are exactly the rows of the selection mask (no per-cell requirement) and the
description reports pure filter mode; the referenced columns are adopted only
when `columns` is omitted entirely — an explicit (even empty) list keeps the
auto-selected columns.  All of this holds for every regex engine and date
branch: the adopted pattern and result rows never depend on them. -/
theorem C2_find_adopts_filter_mode (qe : QueryEngine) (eng : RegexEngine)
    (dateB : DataFrame → String → String → Option (List String) → String →
      Option String → Nat → DataFrame × Payload)
    (df : DataFrame) (pattern flags : String) (columns : Option (List String))
    (replacement : Option String) (rf : String) (head_n : Nat) (drx : String)
    (hrf : rf ≠ "")
    (hpat : pattern = "" ∨ match_all_form pattern = true)
    (hd : (display_regex_and_columns_from_row_filter
        (some (normalize_row_filter rf df.headers))).1 = some drx) :
    (execute_plan qe eng dateB df "find" pattern flags columns replacement
        (some rf) head_n).2.regex = drx
    ∧ (execute_plan qe eng dateB df "find" pattern flags columns replacement
        (some rf) head_n).2.regex_source = "row_filter-derived"
    ∧ (execute_plan qe eng dateB df "find" pattern flags columns replacement
        (some rf) head_n).2.result_rows_description
        = "Result rows = rows where row_filter is true."
    ∧ (execute_plan qe eng dateB df "find" pattern flags columns replacement
        (some rf) head_n).2.result_rows_indices
        = (maskPositions (ensure_mask_from_query qe eng df (some rf))).take 2000
    ∧ (execute_plan qe eng dateB df "find" pattern flags columns replacement
        (some rf) head_n).2.result_rows_count
        = (maskPositions (ensure_mask_from_query qe eng df (some rf))).length
    ∧ (columns = none →
        (display_regex_and_columns_from_row_filter
          (some (normalize_row_filter rf df.headers))).2 ≠ [] →
        (execute_plan qe eng dateB df "find" pattern flags columns replacement
          (some rf) head_n).2.columns_applied
          = (display_regex_and_columns_from_row_filter
              (some (normalize_row_filter rf df.headers))).2.filter
              (fun c => c ∈ df.headers))
    ∧ (execute_plan qe eng dateB df "find" pattern flags columns replacement
        (some rf) head_n).1 = df := by
  have hfind : pyLower "find" = "find" := by decide
  have hpat' : match_all_form (if pattern = "" ∧ pyLower "find" = "find"
      then "^.*$" else pattern) = true := by
    by_cases hpe : pattern = ""
    · rw [if_pos ⟨hpe, hfind⟩]; decide
    · rw [if_neg (by intro hc; exact hpe hc.1)]
      rcases hpat with h | h
      · exact absurd h hpe
      · exact h
  have hdrne : drx ≠ "" := displayRegex_ne_empty hd
  have hpat2 : match_all_form (if pattern = "" ∧ pyLower "find" = "find"
      then "^.*$" else pattern) = true := hpat'
  have hpat3 : match_all_form (if pattern = "" then "^.*$" else pattern) = true := by
    simpa [hfind] using hpat'
  refine ⟨?_, ?_, ?_, ?_, ?_, ?_, ?_⟩
  · unfold execute_plan
    dsimp only
    rw [if_neg hrf, hd]
    simp [hfind, hpat2, hpat3, hdrne]
  · unfold execute_plan
    dsimp only
    rw [if_neg hrf, hd]
    simp [hfind, hpat2, hpat3, hdrne]
  · unfold execute_plan
    dsimp only
    rw [if_neg hrf, hd]
    simp [hfind, hpat2, hpat3, hdrne]
  · unfold execute_plan
    dsimp only
    rw [if_neg hrf, hd]
    simp [hfind, hpat2, hpat3, hdrne]
  · unfold execute_plan
    dsimp only
    rw [if_neg hrf, hd]
    simp [hfind, hpat2, hpat3, hdrne]
  · intro hcols hdc
    unfold execute_plan
    dsimp only
    rw [if_neg hrf, hd]
    simp [hfind, hpat2, hpat3, hdrne, hcols, hdc]
  · unfold execute_plan
    dsimp only
    rw [if_neg hrf, hd]
    simp [hfind, hpat2, hpat3, hdrne]

/-- C2 witness: find with pattern `^.*$`, no columns argument and the filter
`` `Gender` == 'Female' `` adopts the derived regex `(?:Female)` and the
referenced column, and reports exactly the filtered rows. -/
theorem C2_find_adopts_filter_mode_witness :
    (execute_plan pandasQueryFragment matchAllEngine noDateBranch dfGender "find" "^.*$" "i"
      none none (some "`Gender` == 'Female'") 1000).2.regex = "(?:Female)"
    ∧ (execute_plan pandasQueryFragment matchAllEngine noDateBranch dfGender "find" "^.*$" "i"
        none none (some "`Gender` == 'Female'") 1000).2.result_rows_description
        = "Result rows = rows where row_filter is true."
    ∧ (execute_plan pandasQueryFragment matchAllEngine noDateBranch dfGender "find" "^.*$" "i"
        none none (some "`Gender` == 'Female'") 1000).2.result_rows_indices = [0, 2]
    ∧ (execute_plan pandasQueryFragment matchAllEngine noDateBranch dfGender "find" "^.*$" "i"
        none none (some "`Gender` == 'Female'") 1000).2.columns_applied = ["Gender"] := by
  have h := C2_find_adopts_filter_mode pandasQueryFragment matchAllEngine noDateBranch dfGender
    "^.*$" "i" none none "`Gender` == 'Female'" 1000 "(?:Female)" (by decide)
    (Or.inr (by decide)) (by decide)
  refine ⟨h.1, h.2.2.1, ?_, h.2.2.2.2.2.1 rfl (by decide)⟩
  rw [h.2.2.2.1]
  decide

/-- C2 counterexample: with an explicit empty columns list, the display
pattern is still derived and adopted as the regex, but the referenced columns
are not — `columns_applied` remains the textual auto-selection, refuting the
claim that the referenced columns are adopted for every such execution. -/
theorem C2_columns_not_adopted_counterexample :
    (display_regex_and_columns_from_row_filter
      (some (normalize_row_filter "`Gender` == 'Female'" dfGender.headers))).2 = ["Gender"]
    ∧ (execute_plan pandasQueryFragment matchAllEngine noDateBranch dfGender "find" "^.*$" "i"
        (some []) none (some "`Gender` == 'Female'") 1000).2.regex_source
        = "row_filter-derived"
    ∧ (execute_plan pandasQueryFragment matchAllEngine noDateBranch dfGender "find" "^.*$" "i"
        (some []) none (some "`Gender` == 'Female'") 1000).2.columns_applied
        = ["Gender", "City"]
    ∧ (["Gender", "City"] : List String) ≠ ["Gender"] := by
  refine ⟨by decide, by decide, by decide, by decide⟩

/-! ## Claim C1 -/

/-- Rectangular datasets: every row is as wide as the header list. -/
def DataFrame.WF (df : DataFrame) : Prop :=
  ∀ i, i < df.nrows → (df.rows.getD i []).length = df.headers.length

theorem setCol_headers (df : DataFrame) (c : String) (vals : List Cell) :
    (setCol df c vals).headers = df.headers := by
  unfold setCol
  cases colIndex df c <;> rfl

theorem setCol_rows_getElem? (df : DataFrame) {c : String} {j : Nat}
    (hj : colIndex df c = some j) (vals : List Cell) (i : Nat) :
    (setCol df c vals).rows[i]? =
      (match df.rows[i]?, vals[i]? with
       | some r, some v => some (r.set j v)
       | _, _ => none) := by
  unfold setCol
  rw [hj]
  dsimp only
  rw [List.getElem?_zipWith]
  cases df.rows[i]? <;> cases vals[i]? <;> rfl

theorem setCol_nrows (df : DataFrame) (c : String) (vals : List Cell)
    (h : vals.length = df.nrows) : (setCol df c vals).nrows = df.nrows := by
  cases hj : colIndex df c with
  | none => unfold setCol; rw [hj]
  | some j =>
    unfold setCol
    rw [hj]
    dsimp only [DataFrame.nrows]
    rw [List.length_zipWith]
    have h' : vals.length = df.rows.length := h
    simp [h']

theorem setCol_wf (df : DataFrame) (c : String) (vals : List Cell)
    (hwf : df.WF) (h : vals.length = df.nrows) : (setCol df c vals).WF := by
  intro i hi
  rw [setCol_nrows df c vals h] at hi
  cases hj : colIndex df c with
  | none =>
    unfold setCol
    rw [hj]
    exact hwf i hi
  | some j =>
    have := setCol_rows_getElem? df hj vals i
    have hr : df.rows[i]? = some (df.rows.getD i []) := by
      rw [List.getD_eq_getElem?_getD, List.getElem?_eq_getElem hi]
      rfl
    have hv : vals[i]? = some (vals.getD i none) := by
      rw [List.getD_eq_getElem?_getD, List.getElem?_eq_getElem (by omega)]
      rfl
    rw [hr, hv] at this
    have hlen : ((setCol df c vals).rows.getD i []) = (df.rows.getD i []).set j (vals.getD i none) := by
      rw [List.getD_eq_getElem?_getD, this]
      rfl
    rw [setCol_headers, hlen, List.length_set]
    exact hwf i hi

theorem colIndex_setCol (df : DataFrame) (c c' : String) (vals : List Cell) :
    colIndex (setCol df c vals) c' = colIndex df c' := by
  unfold colIndex
  rw [setCol_headers]

theorem getCol_length_eq_nrows {df : DataFrame} {c : String} {j : Nat}
    (hj : colIndex df c = some j) : (getCol df c).length = df.nrows := by
  unfold getCol
  rw [hj, List.length_map]
  rfl

theorem getCol_getElem? {df : DataFrame} {c : String} {j : Nat}
    (hj : colIndex df c = some j) (i : Nat) :
    (getCol df c)[i]? = (df.rows[i]?).map (fun r => r.getD j none) := by
  unfold getCol
  rw [hj, List.getElem?_map]

theorem getCol_setCol_self (df : DataFrame) (c : String) (vals : List Cell)
    (hwf : df.WF) (hmem : c ∈ df.headers) (hlen : vals.length = df.nrows) :
    getCol (setCol df c vals) c = vals := by
  cases hj : colIndex df c with
  | none =>
    have := colIndex_isSome_of_mem hmem
    unfold colIndex at hj
    rw [hj] at this
    cases this
  | some j =>
    have hjlt : j < df.headers.length := colIndex_lt hj
    apply List.ext_getElem?
    intro i
    rw [getCol_getElem? (by rw [colIndex_setCol]; exact hj), setCol_rows_getElem? df hj vals]
    by_cases hi : i < df.nrows
    · have hr : df.rows[i]? = some (df.rows.getD i []) := by
        rw [List.getD_eq_getElem?_getD, List.getElem?_eq_getElem hi]; rfl
      have hv : vals[i]? = some (vals.getD i none) := by
        rw [List.getD_eq_getElem?_getD, List.getElem?_eq_getElem (by omega)]; rfl
      rw [hr, hv]
      have hjr : j < (df.rows.getD i []).length := by rw [hwf i hi]; exact hjlt
      simp only [Option.map_some']
      rw [List.getD_eq_getElem?_getD, List.getElem?_set, if_pos rfl, if_pos hjr]
      rfl
    · have hr : df.rows[i]? = none := List.getElem?_eq_none (by
        rw [DataFrame.nrows] at hi; omega)
      have hv : vals[i]? = none := List.getElem?_eq_none (by omega)
      rw [hr, hv]
      rfl

theorem getCol_setCol_ne (df : DataFrame) (c c' : String) (vals : List Cell)
    (hne : c' ≠ c) (hlen : vals.length = df.nrows) :
    getCol (setCol df c vals) c' = getCol df c' := by
  cases hj : colIndex df c with
  | none =>
    unfold setCol
    rw [hj]
  | some j =>
    cases hj' : colIndex df c' with
    | none =>
      unfold getCol
      rw [colIndex_setCol, hj']
    | some j' =>
      have hjj : j ≠ j' := by
        intro hcon
        have h1 := colIndex_getElem? hj
        have h2 := colIndex_getElem? hj'
        rw [hcon, h2] at h1
        injection h1 with h1
        exact hne h1
      apply List.ext_getElem?
      intro i
      rw [getCol_getElem? (by rw [colIndex_setCol]; exact hj'), getCol_getElem? hj',
        setCol_rows_getElem? df hj vals]
      by_cases hi : i < df.nrows
      · have hr : df.rows[i]? = some (df.rows.getD i []) := by
          rw [List.getD_eq_getElem?_getD, List.getElem?_eq_getElem hi]; rfl
        have hv : vals[i]? = some (vals.getD i none) := by
          rw [List.getD_eq_getElem?_getD, List.getElem?_eq_getElem (by omega)]; rfl
        rw [hr, hv]
        simp only [Option.map_some']
        congr 1
        rw [List.getD_eq_getElem?_getD, List.getD_eq_getElem?_getD, List.getElem?_set]
        rw [if_neg hjj, List.getD_eq_getElem?_getD]
      · have hr : df.rows[i]? = none := List.getElem?_eq_none (by
          rw [DataFrame.nrows] at hi; omega)
        rw [hr]


theorem matchAll_count_zero_sub_id (fl : Nat) (rep s : String)
    (h : matchAllEngine.countMatches "^.*$" fl s = 0) :
    matchAllEngine.subAll "^.*$" fl rep s = s := by
  unfold matchAllEngine at h ⊢
  dsimp only at h ⊢
  by_cases hg : ("^.*$" == "^.*$" && (fl &&& (reMULTILINE ||| reDOTALL)) == 0) = true
  · rw [if_pos hg] at h ⊢
    unfold matchAllCount at h
    unfold matchAllSubOne
    by_cases h1 : s.data.all (fun c => c != '\n') = true
    · rw [if_pos h1] at h; cases h
    · rw [if_neg h1] at h ⊢
      by_cases h2 : (s.data.getLast? == some '\n' && (s.data.dropLast).all
          (fun c => c != '\n')) = true
      · rw [if_pos h2] at h; cases h
      · rw [if_neg h2]
  · rw [if_neg hg]

theorem cellSub_id_of_count_zero (fl : Nat) (rep : String) (cell : Cell)
    (h : cellCountIn matchAllEngine "^.*$" fl cell = 0) :
    cellSub matchAllEngine "^.*$" fl rep cell = cell := by
  cases cell with
  | none => rfl
  | some s =>
    unfold cellCountIn at h
    unfold cellSub
    dsimp only at h ⊢
    rw [matchAll_count_zero_sub_id fl rep s h]

theorem replaceColumn_headers (eng : RegexEngine) (pat : String) (fl : Nat)
    (rep : String) (mask : Mask) (d : DataFrame) (c : String) :
    (replaceColumn eng pat fl rep mask d c).1.headers = d.headers := by
  unfold replaceColumn
  dsimp only
  split
  · rfl
  · exact setCol_headers d c _

theorem replaceColumn_nrows (eng : RegexEngine) (pat : String) (fl : Nat)
    (rep : String) (mask : Mask) (d : DataFrame) (c : String) :
    (replaceColumn eng pat fl rep mask d c).1.nrows = d.nrows := by
  unfold replaceColumn
  dsimp only
  split
  · rfl
  · exact setCol_nrows d c _ (by rw [List.length_map, List.length_range])

theorem replaceColumn_wf (eng : RegexEngine) (pat : String) (fl : Nat)
    (rep : String) (mask : Mask) (d : DataFrame) (c : String) (hwf : d.WF) :
    (replaceColumn eng pat fl rep mask d c).1.WF := by
  unfold replaceColumn
  dsimp only
  split
  · exact hwf
  · exact setCol_wf d c _ hwf (by rw [List.length_map, List.length_range])

theorem replaceColumn_getCol_ne (eng : RegexEngine) (pat : String) (fl : Nat)
    (rep : String) (mask : Mask) (d : DataFrame) (c c' : String) (hne : c' ≠ c) :
    getCol (replaceColumn eng pat fl rep mask d c).1 c' = getCol d c' := by
  unfold replaceColumn
  dsimp only
  split
  · rfl
  · exact getCol_setCol_ne d c c' _ hne (by rw [List.length_map, List.length_range])

theorem replaceColumn_getCol_self (fl : Nat) (rep : String) (mask : Mask)
    (d : DataFrame) (c : String) (hwf : d.WF) (hmem : c ∈ d.headers) :
    getCol (replaceColumn matchAllEngine "^.*$" fl rep mask d c).1 c =
      (List.range d.nrows).map (fun i =>
        if maskGet mask i then cellSub matchAllEngine "^.*$" fl rep ((getCol d c).getD i none)
        else (getCol d c).getD i none) := by
  rcases hj : colIndex d c with _ | j
  · have := colIndex_isSome_of_mem hmem
    unfold colIndex at hj
    rw [hj] at this
    cases this
  · have hlen : (getCol d c).length = d.nrows := getCol_length_eq_nrows hj
    unfold replaceColumn
    dsimp only
    split
    · rename_i hn
      have hall : ∀ i ∈ List.range d.nrows,
          (if maskGet mask i then cellSub matchAllEngine "^.*$" fl rep
              ((getCol d c).getD i none)
            else (getCol d c).getD i none) = (getCol d c).getD i none := by
        intro i hi
        by_cases hm : maskGet mask i = true
        · rw [if_pos hm]
          apply cellSub_id_of_count_zero
          have hz : ∀ x ∈ (List.range d.nrows).map (fun i =>
              if maskGet mask i
              then cellCountIn matchAllEngine "^.*$" fl ((getCol d c).getD i none)
              else 0), x = 0 := List.sum_eq_zero_iff.mp hn
          have := hz _ (List.mem_map_of_mem _ hi)
          rw [if_pos hm] at this
          exact this
        · rw [if_neg hm]
      rw [List.map_congr_left hall]
      conv_rhs => rw [← hlen]
      exact (range_map_getD (getCol d c) none).symm
    · rw [getCol_setCol_self d c _ hwf hmem (by rw [List.length_map, List.length_range])]

theorem foldl_replaceStep_fst (eng : RegexEngine) (pat : String) (fl : Nat)
    (rep : String) (mask : Mask) :
    ∀ (cs : List String) (st : DataFrame × Nat × List (String × Nat) × List Nat),
    (cs.foldl (replaceStep eng pat fl rep mask) st).1 =
      cs.foldl (fun d c => (replaceColumn eng pat fl rep mask d c).1) st.1 := by
  intro cs
  induction cs with
  | nil => intro st; rfl
  | cons c cs ih =>
    intro st
    rw [List.foldl_cons, List.foldl_cons, ih]
    rfl

theorem replaceFold_props (fl : Nat) (rep : String) (mask : Mask) :
    ∀ (cs : List String) (d : DataFrame), d.headers.Nodup → d.WF → cs.Nodup →
    (∀ c ∈ cs, c ∈ d.headers) →
    ((cs.foldl (fun d c => (replaceColumn matchAllEngine "^.*$" fl rep mask d c).1) d).headers
        = d.headers
    ∧ (cs.foldl (fun d c => (replaceColumn matchAllEngine "^.*$" fl rep mask d c).1) d).nrows
        = d.nrows
    ∧ (cs.foldl (fun d c => (replaceColumn matchAllEngine "^.*$" fl rep mask d c).1) d).WF
    ∧ ∀ c' ∈ d.headers,
        getCol (cs.foldl (fun d c => (replaceColumn matchAllEngine "^.*$" fl rep mask d c).1) d) c'
          = if c' ∈ cs
            then (List.range d.nrows).map (fun i =>
              if maskGet mask i
              then cellSub matchAllEngine "^.*$" fl rep ((getCol d c').getD i none)
              else (getCol d c').getD i none)
            else getCol d c') := by
  intro cs
  induction cs with
  | nil =>
    intro d _ hwf _ _
    refine ⟨rfl, rfl, hwf, ?_⟩
    intro c' _
    rw [if_neg (by simp)]
    rfl
  | cons c cs ih =>
    intro d hnd hwf hcs hsub
    have hh1 : (replaceColumn matchAllEngine "^.*$" fl rep mask d c).1.headers = d.headers :=
      replaceColumn_headers _ _ _ _ _ _ _
    have hn1 : (replaceColumn matchAllEngine "^.*$" fl rep mask d c).1.nrows = d.nrows :=
      replaceColumn_nrows _ _ _ _ _ _ _
    have hw1 : (replaceColumn matchAllEngine "^.*$" fl rep mask d c).1.WF :=
      replaceColumn_wf _ _ _ _ _ _ _ hwf
    have hnodup := List.nodup_cons.mp hcs
    obtain ⟨H1, H2, H3, H4⟩ := ih (replaceColumn matchAllEngine "^.*$" fl rep mask d c).1
      (by rw [hh1]; exact hnd) hw1 hnodup.2
      (fun x hx => by rw [hh1]; exact hsub x (List.mem_cons_of_mem c hx))
    simp only [List.foldl_cons]
    refine ⟨H1.trans hh1, H2.trans hn1, H3, ?_⟩
    intro c' hc'
    have hgc := H4 c' (by rw [hh1]; exact hc')
    by_cases hcc : c' = c
    · subst hcc
      rw [if_neg hnodup.1] at hgc
      rw [hgc, if_pos (List.mem_cons_self c' cs)]
      exact replaceColumn_getCol_self fl rep mask d c' hwf hc'
    · have hg1 : getCol (replaceColumn matchAllEngine "^.*$" fl rep mask d c).1 c'
          = getCol d c' := replaceColumn_getCol_ne _ _ _ _ _ _ _ _ hcc
      rw [hgc]
      by_cases hin : c' ∈ cs
      · rw [if_pos hin, if_pos (List.mem_cons_of_mem c hin), hg1, hn1]
      · rw [if_neg hin, if_neg (by simp [hcc, hin]), hg1]

theorem foldl_flagStep_no_ms : ∀ (l : List Char) (acc : Nat),
    (∀ c ∈ l, c ∉ (['m', 's'] : List Char)) → acc ∈ ([0, 2, 64, 66] : List Nat) →
    l.foldl flagStep acc ∈ ([0, 2, 64, 66] : List Nat) := by
  intro l
  induction l with
  | nil => intro acc _ hacc; exact hacc
  | cons c rest ih =>
    intro acc h hacc
    have hc := h c (by simp)
    simp only [List.mem_cons, List.not_mem_nil, or_false] at hc
    push_neg at hc
    simp only [List.mem_cons, List.not_mem_nil, or_false] at hacc
    have hstep : flagStep acc c ∈ ([0, 2, 64, 66] : List Nat) := by
      unfold flagStep
      by_cases hi : c = 'i'
      · rw [if_pos hi]
        rcases hacc with h0 | h0 | h0 | h0 <;> subst h0 <;> decide
      · rw [if_neg hi, if_neg hc.1, if_neg hc.2]
        by_cases hx : c = 'x'
        · rw [if_pos hx]
          rcases hacc with h0 | h0 | h0 | h0 <;> subst h0 <;> decide
        · rw [if_neg hx]
          simp only [List.mem_cons, List.not_mem_nil, or_false]
          exact hacc
    rw [List.foldl_cons]
    exact ih (flagStep acc c) (fun d hd => h d (by simp [hd])) hstep

theorem compile_flags_no_ms (flags : String) (hm : 'm' ∉ flags.data)
    (hs : 's' ∉ flags.data) :
    compile_flags flags &&& (reMULTILINE ||| reDOTALL) = 0 := by
  unfold compile_flags
  by_cases he : flags = ""
  · rw [if_pos he]; decide
  · rw [if_neg he]
    dsimp only
    have h : flags.data.foldl flagStep 0 ∈ ([0, 2, 64, 66] : List Nat) := by
      apply foldl_flagStep_no_ms flags.data 0 _ (by decide)
      intro c hcmem
      simp only [List.mem_cons, List.not_mem_nil, or_false]
      push_neg
      exact ⟨fun hcon => hm (hcon ▸ hcmem), fun hcon => hs (hcon ▸ hcmem)⟩
    by_cases hv : flags.data.foldl flagStep 0 = 0
    · rw [if_pos hv]; decide
    · rw [if_neg hv]
      simp only [List.mem_cons, List.not_mem_nil, or_false] at h
      rcases h with h0 | h0 | h0 | h0
      · exact absurd h0 hv
      · rw [h0]; decide
      · rw [h0]; decide
      · rw [h0]; decide

theorem execute_plan_replace_df (qe : QueryEngine)
    (dateB : DataFrame → String → String → Option (List String) → String →
      Option String → Nat → DataFrame × Payload)
    (df : DataFrame) (flags rep : String) (cs : List String)
    (rf : Option String) (head_n : Nat)
    (hdn : is_date_normalize_sentinel rep = false) (hne : cs ≠ []) :
    (execute_plan qe matchAllEngine dateB df "replace" "^.*$" flags
        (some cs) (some rep) rf head_n).1
      = cs.foldl (fun d c => (replaceColumn matchAllEngine "^.*$" (compile_flags flags) rep
          (ensure_mask_from_query qe matchAllEngine df rf) d c).1) df := by
  have hrepl : pyLower "replace" = "replace" := by decide
  unfold execute_plan
  dsimp only
  simp [hrepl, hdn, hne, auto_columns, foldl_replaceStep_fst]

theorem cellSub_full_overwrite (fl : Nat) (rep s : String)
    (hfl : fl &&& (reMULTILINE ||| reDOTALL) = 0)
    (hnl : s.data.all (fun ch => ch != '\n') = true) :
    cellSub matchAllEngine "^.*$" fl rep (some s) = some rep := by
  unfold cellSub
  dsimp only
  unfold matchAllEngine
  dsimp only
  rw [if_pos (by simp [hfl])]
  unfold matchAllSubOne
  rw [if_pos hnl]

/-- C1: for every dataset and every REPLACE execution with the literal
pattern `^.*$`, an explicit non-empty (duplicate-free, existing) columns list,
a non-date-normalize replacement and flags without `m`/`s`, `execute_plan`
(i) keeps the headers, (ii) rewrites exactly the chosen columns — each cell of
a chosen column becomes its substitution when its row is selected by the
row-filter mask and stays as it was otherwise, every other column being left
untouched, (iii) fully overwrites each masked newline-free cell of a chosen
column with the replacement, (iv) leaves every unmasked cell of the chosen
columns unchanged, and (v) the output frame depends on the row filter only
through the row mask — two row filters with the same mask (in particular any
two whose derived display regexes differ) produce identical frames, so a
row-filter-derived display regex never changes which cells are substituted. -/
theorem C1_replace_full_cell_overwrite (qe : QueryEngine)
    (dateB : DataFrame → String → String → Option (List String) → String →
      Option String → Nat → DataFrame × Payload)
    (df : DataFrame) (flags rep : String) (cs : List String)
    (rf : Option String) (head_n : Nat)
    (hnd : df.headers.Nodup) (hwf : df.WF) (hcs : cs.Nodup) (hne : cs ≠ [])
    (hsub : ∀ c ∈ cs, c ∈ df.headers)
    (hdn : is_date_normalize_sentinel rep = false)
    (hm : 'm' ∉ flags.data) (hs : 's' ∉ flags.data) :
    (execute_plan qe matchAllEngine dateB df "replace" "^.*$" flags
        (some cs) (some rep) rf head_n).1.headers = df.headers
    ∧ (∀ c ∈ df.headers,
        getCol (execute_plan qe matchAllEngine dateB df "replace" "^.*$" flags
            (some cs) (some rep) rf head_n).1 c
          = if c ∈ cs
            then (List.range df.nrows).map (fun i =>
              if maskGet (ensure_mask_from_query qe matchAllEngine df rf) i
              then cellSub matchAllEngine "^.*$" (compile_flags flags) rep
                ((getCol df c).getD i none)
              else (getCol df c).getD i none)
            else getCol df c)
    ∧ (∀ c ∈ cs, ∀ i, i < df.nrows → ∀ s,
        maskGet (ensure_mask_from_query qe matchAllEngine df rf) i = true →
        (getCol df c).getD i none = some s →
        s.data.all (fun ch => ch != '\n') = true →
        (getCol (execute_plan qe matchAllEngine dateB df "replace" "^.*$" flags
            (some cs) (some rep) rf head_n).1 c).getD i none = some rep)
    ∧ (∀ c ∈ cs, ∀ i,
        maskGet (ensure_mask_from_query qe matchAllEngine df rf) i = false →
        (getCol (execute_plan qe matchAllEngine dateB df "replace" "^.*$" flags
            (some cs) (some rep) rf head_n).1 c).getD i none
          = (getCol df c).getD i none)
    ∧ (∀ rf', ensure_mask_from_query qe matchAllEngine df rf'
          = ensure_mask_from_query qe matchAllEngine df rf →
        (execute_plan qe matchAllEngine dateB df "replace" "^.*$" flags
            (some cs) (some rep) rf' head_n).1
          = (execute_plan qe matchAllEngine dateB df "replace" "^.*$" flags
            (some cs) (some rep) rf head_n).1) := by
  have hred := execute_plan_replace_df qe dateB df flags rep cs rf head_n hdn hne
  obtain ⟨H1, H2, H3, H4⟩ := replaceFold_props (compile_flags flags) rep
    (ensure_mask_from_query qe matchAllEngine df rf) cs df hnd hwf hcs hsub
  refine ⟨?_, ?_, ?_, ?_, ?_⟩
  · rw [hred]; exact H1
  · intro c hc
    rw [hred]
    exact H4 c hc
  · intro c hc i hi s hmask hcell hnl
    rw [hred]
    have hcol := H4 c (hsub c hc)
    rw [if_pos hc] at hcol
    rw [hcol, map_range_getD, if_pos hi, hcell]
    simp only [hmask, if_true]
    exact cellSub_full_overwrite (compile_flags flags) rep s
      (compile_flags_no_ms flags hm hs) hnl
  · intro c hc i hmask
    rw [hred]
    have hcol := H4 c (hsub c hc)
    rw [if_pos hc] at hcol
    rw [hcol, map_range_getD]
    by_cases hi : i < df.nrows
    · rw [if_pos hi]
      simp [hmask]
    · rw [if_neg hi]
      have hjs : (df.headers.indexOf? c).isSome := colIndex_isSome_of_mem (hsub c hc)
      rcases hj : colIndex df c with _ | j
      · unfold colIndex at hj
        rw [hj] at hjs
        cases hjs
      · have hlc := getCol_length_eq_nrows hj
        rw [List.getD_eq_getElem?_getD, List.getElem?_eq_none (by omega)]
        rfl
  · intro rf' hmk
    rw [execute_plan_replace_df qe dateB df flags rep cs rf' head_n hdn hne, hred, hmk]

/-- C1 counterexample to the claim as stated: a REPLACE over column `A` with
pattern `^.*$` and an all-true row mask leaves the selected cell `"a\nb"`
unchanged — `re.sub` without MULTILINE finds no match in a string with an
inner newline — so the full cell value is not overwritten for every selected
row; only newline-free cells are. -/
theorem C1_newline_cell_not_overwritten_counterexample :
    (execute_plan pandasQueryFragment matchAllEngine noDateBranch dfCells "replace" "^.*$" "i"
        (some ["A"]) (some "X") none 1000).1.rows
      = [[some "X", some "k1"], [some "a\nb", some "k2"], [none, some "k3"]]
    ∧ (some "a\nb" : Cell) ≠ some "X" :=
  ⟨by decide, by decide⟩

/-- C1 witness: the masked newline-free cell `"hello"` of the chosen column
`A` is fully overwritten with the replacement. -/
theorem C1_replace_full_cell_overwrite_witness :
    (getCol (execute_plan pandasQueryFragment matchAllEngine noDateBranch dfCells "replace"
        "^.*$" "i" (some ["A"]) (some "X") none 1000).1 "A").getD 0 none = some "X" :=
  (C1_replace_full_cell_overwrite pandasQueryFragment noDateBranch dfCells "i" "X" ["A"]
      none 1000 (by decide)
      (by
        intro i hi
        have h3 : i < 3 := hi
        interval_cases i <;> decide)
      (by decide) (by decide) (by decide) (by decide) (by decide)
      (by decide)).2.2.1 "A" (by decide) 0 (by decide) "hello" (by decide) (by decide)
      (by decide)

end RegexApp
